import Mathlib

/-!
Verification of the import-reconciliation and key-wrapping engine of
`keepercommander/imp_exp.py` (Keeper Commander fork).

Shallow embedding notes.
* Uids and names are `String`s; symmetric key material and RSA keys are `Nat`s
  (the cryptographic primitives are opaque per the spec, so a wrap is modelled
  by the constructor `Enc.aes pt key` / `Enc.rsa pt key`).
* The MD5 fingerprint of the source is modelled by the pre-image string that
  the source feeds to `hashlib.md5` (e.g. `'{0}|{1}'.format(comp.lower(),
  parent_uid)`): the digest is injective on the model, matching the spec's
  "accepted collision risk" reading of fingerprints as identity.
* Python dicts keyed by strings are association lists; assignment prepends, so
  `dget` (first match) realises Python's last-assignment-wins lookup.
* `os.urandom(32)` / `api.generate_record_uid()` are modelled by a counter
  supply `g : Nat`: each creation consumes `g` (key `keyOf g`, uid `uidOf g`).
* Python code that can raise an uncaught exception (e.g. an unguarded
  `params.shared_folder_cache[uid]` lookup) is embedded in `Option`, with
  `none` standing for the propagated exception.
* The string constants `BaseFolderNode.RootFolderType` (`'/'`),
  `'user_folder'`, `'shared_folder'`, `'shared_folder_folder'` are the closed
  inductive `FolderType`.
-/

/-- Ownership tier / folder type constants of `BaseFolderNode`
(`'/'`, `'user_folder'`, `'shared_folder'`, `'shared_folder_folder'`). -/
inductive FolderType where
  | root
  | user_folder
  | shared_folder
  | shared_folder_folder
deriving DecidableEq, Repr

/-- An opaque wrap of a plaintext under a key: `api.encrypt_aes` /
`api.encrypt_rsa` are constructors, since the crypto itself is out of scope. -/
inductive Enc (α : Type) where
  | aes (pt : α) (key : Nat)
  | rsa (pt : α) (key : Nat)
deriving DecidableEq, Repr

/-- Plaintext of a wrap (used only to model what the remote store would
decrypt and serve back in a refreshed snapshot). -/
def Enc.pt {α : Type} : Enc α → α
  | .aes p _ => p
  | .rsa p _ => p

/-- Python dict lookup over an association list (first match wins; writes
prepend, so the most recent assignment is found first, as in a dict). -/
def dget {α : Type} : List (String × α) → String → Option α
  | [], _ => none
  | (k, v) :: rest, key => if key = k then some v else dget rest key

/-- Python truthiness of an optional string (`None` and `''` are falsy). -/
def optTruthy : Option String → Bool
  | none => false
  | some s => s ≠ ""

/-- Fresh uid from the supply (models `api.generate_record_uid()`). -/
def uidOf (g : Nat) : String := "uid" ++ toString g

/-- Fresh 32-byte random key from the supply (models `os.urandom(32)`). -/
def keyOf (g : Nat) : Nat := g

/-- ASCII lowercase of one character (computable stand-in for
`str.lower()` / `Char.toLower`, structurally reducible). -/
def lowerChar (c : Char) : Char :=
  if c.isUpper then Char.ofNat (c.toNat + 32) else c

/-- `'…'.lower()` on a string (ASCII). -/
def toLowerStr (s : String) : String := ⟨s.data.map lowerChar⟩

/-- Split a character list at a delimiter. -/
def splitOnChar (delim : Char) : List Char → List (List Char)
  | [] => [[]]
  | c :: rest =>
    let r := splitOnChar delim rest
    if c = delim then [] :: r
    else (c :: r.headD []) :: r.tail

/-- Modelled from the spec: `path_components` (importer module, not part of
this sample) splits a folder path into its ordered segments at the backslash
delimiter ("walk its ownership-boundary segment first, then its plain
sub-path, left to right"). -/
def pathComponents (s : String) : List String :=
  (splitOnChar '\\' s.data).map fun l => ⟨l⟩

/-- Modelled from the spec: stand-in for the standard-library `parseaddr`
used only to instantiate examples; a name containing an at-sign parses as an
email (itself), anything else does not parse (`''`). -/
def simpleParseAddr (s : String) : String :=
  if s.data.contains '@' then s else ""

/-! ## Data model: import-side objects -/

/-- `Folder` of the importer model: `path` plain sub-folder chain, `domain`
optional shared-ownership boundary, per-record permission pair. -/
structure ImportFolder where
  domain : Option String := none
  path : Option String := none
  can_share : Option Bool := none
  can_edit : Option Bool := none
  uid : Option String := none
deriving DecidableEq, Repr

/-- `Record` of the importer model. -/
structure ImportRecord where
  title : Option String := none
  login : Option String := none
  password : Option String := none
  login_url : Option String := none
  notes : Option String := none
  custom_fields : List (String × String) := []
  folders : List ImportFolder := []
  uid : Option String := none
deriving DecidableEq, Repr

/-- `Permission` of the importer model: grantee identity and manage flags. -/
structure Permission where
  uid : Option String := none
  name : String
  manage_users : Bool := false
  manage_records : Bool := false
deriving DecidableEq, Repr

/-- `SharedFolder` of the importer model. -/
structure ImportSharedFolder where
  uid : Option String := none
  path : String
  manage_users : Bool := false
  manage_records : Bool := false
  can_edit : Bool := false
  can_share : Bool := false
  permissions : List Permission := []
deriving DecidableEq, Repr

/-! ## Data model: vault snapshot (`params.*_cache`) -/

/-- A folder node of `params.folder_cache`. -/
structure CacheFolder where
  uid : String
  name : Option String := none
  parent_uid : Option String := none
  type : FolderType
  shared_folder_uid : Option String := none
deriving DecidableEq, Repr

/-- A record of a live shared-folder ACL (`sf['records']` entry). -/
structure SfRec where
  record_uid : String
  can_share : Bool
  can_edit : Bool
deriving DecidableEq, Repr

/-- A team grant of a live shared-folder ACL (`sf['teams']` entry). -/
structure SfTeam where
  team_uid : String
  manage_users : Bool := false
  manage_records : Bool := false
deriving DecidableEq, Repr

/-- An entry of `params.shared_folder_cache`. -/
structure SfCacheEntry where
  shared_folder_key : Nat
  records : Option (List SfRec) := none
  teams : Option (List SfTeam) := none
  key_type : Option Nat := none
deriving DecidableEq, Repr

/-- Modelled from the spec: the team directory ("a team directory (name→uid,
key)"), consumed by grantee resolution; `params.team_cache` itself is not part
of this sample. -/
structure Team where
  name : String
  team_uid : String
  team_key : Nat
deriving DecidableEq, Repr

/-- An entry of `params.record_cache`, as surfaced by `api.get_record`
(decrypted fields) together with its unencrypted record key. -/
structure RecordCacheEntry where
  title : Option String := none
  login : Option String := none
  password : Option String := none
  record_key_unencrypted : Nat := 0
deriving DecidableEq, Repr

/-- The slice of `params` this subsystem reads.  `record_folders` is modelled
from the spec: `find_folders` (subfolder module, not part of this sample)
yields "the set of folders currently containing the record (from the
index)". -/
structure Params where
  user : String
  data_key : Nat
  folder_cache : List (String × CacheFolder) := []
  shared_folder_cache : List (String × SfCacheEntry) := []
  team_cache : List Team := []
  record_cache : List (String × RecordCacheEntry) := []
  record_folders : List (String × List String) := []
deriving DecidableEq, Repr

/-! ## Operation shapes submitted to the remote store -/

/-- A `folder_add` request. -/
structure FolderAddReq where
  folder_uid : String
  folder_type : FolderType
  key : Enc Nat
  parent_uid : Option String := none
  shared_folder_uid : Option String := none
  name : Option (Enc String) := none
  data : Enc String
deriving DecidableEq, Repr

/-- An `add_teams` entry of a `shared_folder_update` request. -/
structure SfTeamEntryReq where
  team_uid : String
  manage_users : Bool
  manage_records : Bool
  shared_folder_key : Enc Nat
deriving DecidableEq, Repr

/-- An `add_users` entry of a `shared_folder_update` request. -/
structure SfUserEntryReq where
  username : String
  manage_users : Bool
  manage_records : Bool
  shared_folder_key : Enc Nat
deriving DecidableEq, Repr

/-- An `update_records` entry of a `shared_folder_update` request. -/
structure RecordPermEntry where
  record_uid : String
  shared_folder_uid : String
  can_edit : Option Bool
  can_share : Option Bool
deriving DecidableEq, Repr

/-- A `shared_folder_update` request.  The manage/default flags are present
only on the requests built by `prepare_shared_folder_add` (the
`prepare_record_permission` requests carry only `update_records`). -/
structure SfUpdateReq where
  shared_folder_uid : String
  manage_users : Option Bool := none
  manage_records : Option Bool := none
  can_edit : Option Bool := none
  can_share : Option Bool := none
  add_teams : Option (List SfTeamEntryReq) := none
  add_users : Option (List SfUserEntryReq) := none
  update_records : Option (List RecordPermEntry) := none
deriving DecidableEq, Repr

/-- Decrypted payload of a `record_add` request's `data` field. -/
structure RecData where
  title : String
  secret1 : String
  secret2 : String
  link : String
  notes : String
  custom : List (String × String)
deriving DecidableEq, Repr

/-- A `record_add` request. -/
structure RecordAddReq where
  record_uid : String
  record_key : Enc Nat
  folder_type : FolderType
  folder_uid : Option String := none
  folder_key : Option (Enc Nat) := none
  team_uid : Option String := none
  data : Enc RecData
deriving DecidableEq, Repr

/-- The `move[]` entry of a `move` request. -/
structure MoveEntry where
  type : String
  uid : String
  from_type : FolderType
  from_uid : Option String := none
  cascade : Bool
deriving DecidableEq, Repr

/-- A `transition_keys[]` entry of a `move` request. -/
structure TransitionKey where
  uid : String
  key : Enc Nat
deriving DecidableEq, Repr

/-- A `move` (link) request. -/
structure MoveReq where
  to_type : FolderType
  to_uid : Option String := none
  link : Bool
  move : List MoveEntry
  transition_keys : List TransitionKey
deriving DecidableEq, Repr

/-- One operation of the ordered queue consumed by `execute_batch`. -/
inductive Request where
  | folderAdd (r : FolderAddReq)
  | sharedFolderUpdate (r : SfUpdateReq)
  | recordAdd (r : RecordAddReq)
  | move (r : MoveReq)
deriving DecidableEq, Repr

/-! ## Batch Executor (`execute_batch`) -/

/-- Response of one `execute` round trip: `exn` models a raised transport
exception (or a malformed response whose field access raises inside the
`try`), `ok result results` a returned envelope (`results = none` when the
`results` key is absent; only the per-result statuses are kept). -/
inductive BatchResp where
  | exn
  | ok (result : String) (results : Option (List String))
deriving DecidableEq, Repr

/-- One iteration of the `execute_batch` loop body acting on the queue: pop
the chunk `queue[:100]`, and compute the remaining queue according to the
response —  `queue = chunk[len(results):] + queue` exactly when the envelope
is a success whose `results` list is non-empty and shorter than the chunk. -/
def batchStep {α : Type} (queue : List α) (resp : BatchResp) : List α :=
  match resp with
  | .exn => queue.drop 100
  | .ok result results =>
    if result = "success" then
      match results with
      | none => queue.drop 100
      | some rs =>
        if 0 < rs.length ∧ rs.length < (queue.take 100).length then
          (queue.take 100).drop rs.length ++ queue.drop 100
        else queue.drop 100
    else queue.drop 100

theorem batchStep_length_lt {α : Type} (queue : List α) (resp : BatchResp)
    (h : queue ≠ []) : (batchStep queue resp).length < queue.length := by
  have hq : 0 < queue.length := List.length_pos.mpr h
  have hdrop : (queue.drop 100).length < queue.length := by
    rw [List.length_drop]; omega
  have hre : ∀ k : Nat, 0 < k →
      ((queue.take 100).drop k ++ queue.drop 100).length < queue.length := by
    intro k hk
    rw [List.length_append, List.length_drop, List.length_drop, List.length_take]
    omega
  unfold batchStep
  cases resp with
  | exn => exact hdrop
  | ok result results =>
    dsimp only
    by_cases hres : result = "success"
    · rw [if_pos hres]
      cases results with
      | none => exact hdrop
      | some rs =>
        dsimp only
        by_cases hlen : 0 < rs.length ∧ rs.length < (queue.take 100).length
        · rw [if_pos hlen]; exact hre rs.length hlen.1
        · rw [if_neg hlen]; exact hdrop
    · rw [if_neg hres]; exact hdrop

/-- The `while len(queue) > 0` loop of `execute_batch`, returning the chunks
submitted to the remote store in order; the responses of successive round
trips are supplied as a list (`exn` when exhausted). -/
def executeBatch {α : Type} : List BatchResp → List α → List (List α)
  | _, [] => []
  | resps, a :: rest =>
    (a :: rest).take 100 ::
      executeBatch resps.tail (batchStep (a :: rest) (resps.headD .exn))
termination_by _ queue => queue.length
decreasing_by
  exact batchStep_length_lt _ _ (by simp)

theorem executeBatch_cons {α : Type} (resps : List BatchResp) (queue : List α)
    (h : queue ≠ []) :
    executeBatch resps queue =
      queue.take 100 :: executeBatch resps.tail (batchStep queue (resps.headD .exn)) := by
  cases queue with
  | nil => exact absurd rfl h
  | cons a rest => rw [executeBatch]

/-! ## Fingerprint Index (folder side)

`prepare_shared_folder_add` (lines 186-197) and `prepare_folder_add`
(lines 342-353) build the identical index: for every folder of
`params.folder_cache`, fingerprint `md5('{0}|{1}'.format((name or
'').lower(), parent_uid or ''))` maps to `(f_uid, fol.type,
shared_folder_key)`, where the shared-folder key is resolved from
`params.shared_folder_cache` for Shared / SharedSub nodes. -/

/-- Is this tier one of `{SharedFolderType, SharedFolderFolderType}`? -/
def isSharedType (t : FolderType) : Bool :=
  t == .shared_folder || t == .shared_folder_folder

/-- The folder index: fingerprint pre-image string to `(uid, type, key)`. -/
abbrev FHash := List (String × (String × FolderType × Option Nat))

/-- `'{0}|{1}'.format(comp.lower(), parent_uid)` — the fingerprint pre-image
of a path segment against its parent. -/
def folderDigest (comp : String) (parentUid : String) : String :=
  toLowerStr comp ++ "|" ++ parentUid

/-- `'{0}|{1}'.format((fol.name or '').lower(), fol.parent_uid or '')` — the
fingerprint pre-image of a cached folder node. -/
def folderCacheFingerprint (fol : CacheFolder) : String :=
  toLowerStr (fol.name.getD "") ++ "|" ++ (fol.parent_uid.getD "")

/-- The `(f_uid, fol.type, shared_folder_key)` triple stored in the index for
a cached folder node. -/
def folderHashValue (sfc : List (String × SfCacheEntry)) (f_uid : String)
    (fol : CacheFolder) : String × FolderType × Option Nat :=
  let sfKey : Option Nat :=
    if isSharedType fol.type then
      ((if fol.type == .shared_folder_folder then fol.shared_folder_uid
        else some fol.uid).bind
        fun su => (dget sfc su).map (·.shared_folder_key))
    else none
  (f_uid, fol.type, sfKey)

/-- Build the folder index from the current vault snapshot (shared by
`prepare_shared_folder_add` and `prepare_folder_add`). -/
def buildFolderHash (params : Params) : FHash :=
  params.folder_cache.foldl
    (fun h p => (folderCacheFingerprint p.2, folderHashValue params.shared_folder_cache p.1 p.2) :: h)
    []


/-! ## Folder Tree Builder (`prepare_folder_add`, lines 341-418) -/

/-- The `(parent_uid, parent_type, parent_shared_folder_uid,
parent_shared_folder_key)` tuple tracked while walking one `ImportFolder`'s
segments. -/
structure WalkSt where
  parentUid : String
  parentType : FolderType
  psfUid : Option String
  psfKey : Option Nat
deriving DecidableEq, Repr

/-- Result of one segment step. -/
structure FAStep where
  st : WalkSt
  fh : FHash
  g : Nat
  req : Option Request
deriving DecidableEq, Repr

/-- Result of walking a list of segments. -/
structure FAWalk where
  st : WalkSt
  fh : FHash
  g : Nat
  reqs : List Request
deriving DecidableEq, Repr

/-- Result of processing one `ImportFolder`. -/
structure FAFolder where
  fol : ImportFolder
  fh : FHash
  g : Nat
  reqs : List Request
deriving DecidableEq, Repr

/-- Result of processing a list of `ImportFolder`s. -/
structure FAFolders where
  folders : List ImportFolder
  fh : FHash
  g : Nat
  reqs : List Request
deriving DecidableEq, Repr

/-- Result of the full `prepare_folder_add` run. -/
structure FARun where
  records : List ImportRecord
  fh : FHash
  g : Nat
  reqs : List Request
deriving DecidableEq, Repr

/-- Adopt an index entry as the new walk state (lines 412, 414-415): take the
stored `(uid, type, key)` and, when the adopted node is a shared folder, make
it the tracked owning shared folder. -/
def adopt (st : WalkSt) (v : String × FolderType × Option Nat) : WalkSt :=
  { parentUid := v.1
    parentType := v.2.1
    psfUid := if v.2.1 = .shared_folder then some v.1 else st.psfUid
    psfKey := v.2.2 }

/-- Create a missing folder node (lines 376-410): decide the tier from the
parent tier and the boundary flag, generate a fresh uid and a fresh folder
key, and wrap the folder key under the tracked shared-folder key for a
SharedSub node (when available) or under the vault master key otherwise.
Returns the request, the continuation walk state before the
`parent_shared_folder_uid` update, and the advanced supply. -/
def createFolderNode (mk : Nat) (st : WalkSt) (g : Nat) (is_shared : Bool)
    (comp : String) : FolderAddReq × WalkSt × Nat :=
  let folder_uid := uidOf g
  let folder_type :=
    if st.parentType = .user_folder ∨ st.parentType = .root then
      (if is_shared then FolderType.shared_folder else .user_folder)
    else .shared_folder_folder
  let useSf := (folder_type == .shared_folder_folder) && optTruthy st.psfUid
      && st.psfKey.isSome
  let encryption_key := if useSf then st.psfKey.getD 0 else mk
  let folder_key := keyOf g
  let req : FolderAddReq :=
    { folder_uid := folder_uid
      folder_type := folder_type
      key := Enc.aes folder_key encryption_key
      parent_uid :=
        if st.parentType ≠ .root ∧ st.parentType ≠ .shared_folder then
          some st.parentUid
        else none
      shared_folder_uid := if useSf then st.psfUid else none
      name :=
        if folder_type = .shared_folder then some (Enc.aes comp folder_key)
        else none
      data := Enc.aes comp folder_key }
  let psfKey' := if folder_type = .shared_folder then some folder_key else st.psfKey
  (req,
   { parentUid := folder_uid, parentType := folder_type, psfUid := st.psfUid
     psfKey := psfKey' },
   g + 1)

/-- One iteration of the segment loop of `prepare_folder_add` (lines
370-415): look the segment's fingerprint up; on a miss create the node and
record it in the index (the stored triple is exactly the continuation
state); either way adopt the node and, if it is a shared folder, track it as
the owning shared folder. -/
def folderAddStep (mk : Nat) (st : WalkSt) (fh : FHash) (g : Nat)
    (isDomain isLast : Bool) (comp : String) : FAStep :=
  let digest := folderDigest comp st.parentUid
  match dget fh digest with
  | some v => ⟨adopt st v, fh, g, none⟩
  | none =>
    let is_shared := isLast && isDomain
    let r := createFolderNode mk st g is_shared comp
    let w := (r.2.1.parentUid, r.2.1.parentType, r.2.1.psfKey)
    ⟨adopt st w, (digest, w) :: fh, r.2.2, some (.folderAdd r.1)⟩

/-- The `for i in range(len(comps))` loop over one path's segments. -/
def walkFolderComps (mk : Nat) (isDomain : Bool) :
    WalkSt → FHash → Nat → List String → FAWalk
  | st, fh, g, [] => ⟨st, fh, g, []⟩
  | st, fh, g, c :: rest =>
    let r := folderAddStep mk st fh g isDomain rest.isEmpty c
    let r2 := walkFolderComps mk isDomain r.st r.fh r.g rest
    ⟨r2.st, r2.fh, r2.g, r.req.toList ++ r2.reqs⟩

/-- One `is_domain` iteration (lines 364-368): skip a falsy path, otherwise
walk its components. -/
def walkOnePath (mk : Nat) (isDomain : Bool) (st : WalkSt) (fh : FHash)
    (g : Nat) : Option String → FAWalk
  | none => ⟨st, fh, g, []⟩
  | some p =>
    if p = "" then ⟨st, fh, g, []⟩
    else walkFolderComps mk isDomain st fh g (pathComponents p)

/-- Process one `ImportFolder` of a record (lines 359-416): walk the domain
(ownership boundary) first, then the plain path, from a fresh root state, and
assign the deepest resolved uid to the folder. -/
def processImportFolder (mk : Nat) (fh : FHash) (g : Nat)
    (fol : ImportFolder) : FAFolder :=
  let st0 : WalkSt := ⟨"", .root, none, none⟩
  let r1 := walkOnePath mk true st0 fh g fol.domain
  let r2 := walkOnePath mk false r1.st r1.fh r1.g fol.path
  ⟨{ fol with uid := some r2.st.parentUid }, r2.fh, r2.g, r1.reqs ++ r2.reqs⟩

/-- The `for fol in rec.folders` loop. -/
def processFolderList (mk : Nat) :
    FHash → Nat → List ImportFolder → FAFolders
  | fh, g, [] => ⟨[], fh, g, []⟩
  | fh, g, fol :: rest =>
    let r := processImportFolder mk fh g fol
    let r2 := processFolderList mk r.fh r.g rest
    ⟨r.fol :: r2.folders, r2.fh, r2.g, r.reqs ++ r2.reqs⟩

/-- The `for rec in records` loop of `prepare_folder_add`, from a given
index: returns the mutated records, the final index, the advanced supply and
the emitted `folder_add` requests. -/
def processRecordsFA (mk : Nat) :
    FHash → Nat → List ImportRecord → FARun
  | fh, g, [] => ⟨[], fh, g, []⟩
  | fh, g, rec :: rest =>
    let r := processFolderList mk fh g rec.folders
    let r2 := processRecordsFA mk r.fh r.g rest
    ⟨{ rec with folders := r.folders } :: r2.records, r2.fh, r2.g,
     r.reqs ++ r2.reqs⟩

/-- `prepare_folder_add(params, records)`: build the folder index from the
snapshot, then walk every record's folders. -/
def prepare_folder_add (params : Params) (records : List ImportRecord)
    (g : Nat) : FARun :=
  processRecordsFA params.data_key (buildFolderHash params) g records

/-! ### Index monotonicity and second-run completeness of the folder walk

The walk only ever inserts fresh fingerprints into the index (`les`), and a
re-walk of the same segments against any index that preserves the first
walk's final entries finds every fingerprint and emits nothing. -/

/-- `fh'` preserves every lookup of `fh`. -/
def les (fh fh' : FHash) : Prop :=
  ∀ k v, dget fh k = some v → dget fh' k = some v

theorem les_refl (fh : FHash) : les fh fh := fun _ _ h => h

theorem les_trans {a b c : FHash} (h1 : les a b) (h2 : les b c) : les a c :=
  fun k v h => h2 k v (h1 k v h)

theorem dget_cons_self {α : Type} (l : List (String × α)) (k : String)
    (v : α) : dget ((k, v) :: l) k = some v := by
  simp [dget]

theorem les_insert_fresh (fh : FHash) (k : String)
    (v : String × FolderType × Option Nat) (h : dget fh k = none) :
    les fh ((k, v) :: fh) := by
  intro k' v' h'
  by_cases hk : k' = k
  · subst hk; rw [h] at h'; exact absurd h' (by simp)
  · simpa [dget, hk] using h'

theorem folderAddStep_les (mk : Nat) (st : WalkSt) (fh : FHash) (g : Nat)
    (dom last : Bool) (c : String) :
    les fh (folderAddStep mk st fh g dom last c).fh := by
  simp only [folderAddStep]
  cases hd : dget fh (folderDigest c st.parentUid) with
  | some v => exact les_refl fh
  | none => exact les_insert_fresh fh _ _ hd

theorem folderAddStep_cases (mk : Nat) (st : WalkSt) (fh : FHash) (g : Nat)
    (dom last : Bool) (c : String) :
    ∃ w, dget (folderAddStep mk st fh g dom last c).fh
          (folderDigest c st.parentUid) = some w
        ∧ (folderAddStep mk st fh g dom last c).st = adopt st w := by
  simp only [folderAddStep]
  cases hd : dget fh (folderDigest c st.parentUid) with
  | some v => exact ⟨v, hd, rfl⟩
  | none => exact ⟨_, dget_cons_self _ _ _, rfl⟩

theorem folderAddStep_found (mk : Nat) (st : WalkSt) (fh2 : FHash) (g2 : Nat)
    (dom last : Bool) (c : String) (w : String × FolderType × Option Nat)
    (h : dget fh2 (folderDigest c st.parentUid) = some w) :
    folderAddStep mk st fh2 g2 dom last c = ⟨adopt st w, fh2, g2, none⟩ := by
  simp only [folderAddStep, h]

theorem walkFolderComps_les (mk : Nat) (dom : Bool) :
    ∀ (comps : List String) (st : WalkSt) (fh : FHash) (g : Nat),
      les fh (walkFolderComps mk dom st fh g comps).fh
  | [], _, fh, _ => les_refl fh
  | c :: rest, st, fh, g =>
    les_trans (folderAddStep_les mk st fh g dom rest.isEmpty c)
      (walkFolderComps_les mk dom rest _ _ _)

theorem walkFolderComps_complete (mk : Nat) (dom : Bool) :
    ∀ (comps : List String) (st : WalkSt) (fh fh2 : FHash) (g g2 : Nat),
      les (walkFolderComps mk dom st fh g comps).fh fh2 →
      walkFolderComps mk dom st fh2 g2 comps =
        ⟨(walkFolderComps mk dom st fh g comps).st, fh2, g2, []⟩ := by
  intro comps
  induction comps with
  | nil => intro st fh fh2 g g2 _; rfl
  | cons c rest ih =>
    intro st fh fh2 g g2 hles
    obtain ⟨w, hw, hstw⟩ :=
      folderAddStep_cases mk st fh g dom rest.isEmpty c
    have hfh1 : (walkFolderComps mk dom st fh g (c :: rest)).fh =
        (walkFolderComps mk dom (folderAddStep mk st fh g dom rest.isEmpty c).st
          (folderAddStep mk st fh g dom rest.isEmpty c).fh
          (folderAddStep mk st fh g dom rest.isEmpty c).g rest).fh := rfl
    have hst1 : (walkFolderComps mk dom st fh g (c :: rest)).st =
        (walkFolderComps mk dom (folderAddStep mk st fh g dom rest.isEmpty c).st
          (folderAddStep mk st fh g dom rest.isEmpty c).fh
          (folderAddStep mk st fh g dom rest.isEmpty c).g rest).st := rfl
    have hmono := walkFolderComps_les mk dom rest
      (folderAddStep mk st fh g dom rest.isEmpty c).st
      (folderAddStep mk st fh g dom rest.isEmpty c).fh
      (folderAddStep mk st fh g dom rest.isEmpty c).g
    have hfound2 : dget fh2 (folderDigest c st.parentUid) = some w := by
      apply hles
      rw [hfh1] at hles ⊢
      exact hmono _ _ hw
    have hstep2 := folderAddStep_found mk st fh2 g2 dom rest.isEmpty c w hfound2
    have hih := ih (folderAddStep mk st fh g dom rest.isEmpty c).st
      (folderAddStep mk st fh g dom rest.isEmpty c).fh fh2
      (folderAddStep mk st fh g dom rest.isEmpty c).g g2 (by rw [← hfh1]; exact hles)
    calc walkFolderComps mk dom st fh2 g2 (c :: rest)
        = walkFolderComps mk dom (adopt st w) fh2 g2 rest := by
          simp only [walkFolderComps, hstep2]
          rfl
      _ = walkFolderComps mk dom (folderAddStep mk st fh g dom rest.isEmpty c).st
            fh2 g2 rest := by rw [hstw]
      _ = ⟨(walkFolderComps mk dom st fh g (c :: rest)).st, fh2, g2, []⟩ := by
          rw [hih, ← hst1]

theorem walkOnePath_les (mk : Nat) (dom : Bool) (st : WalkSt) (fh : FHash)
    (g : Nat) (p : Option String) :
    les fh (walkOnePath mk dom st fh g p).fh := by
  cases p with
  | none => exact les_refl fh
  | some s =>
    by_cases hs : s = ""
    · simp only [walkOnePath, hs, if_pos rfl]; exact les_refl fh
    · simp only [walkOnePath, if_neg hs]
      exact walkFolderComps_les mk dom (pathComponents s) st fh g

theorem walkOnePath_complete (mk : Nat) (dom : Bool) (st : WalkSt)
    (fh fh2 : FHash) (g g2 : Nat) (p : Option String)
    (hles : les (walkOnePath mk dom st fh g p).fh fh2) :
    walkOnePath mk dom st fh2 g2 p =
      ⟨(walkOnePath mk dom st fh g p).st, fh2, g2, []⟩ := by
  cases p with
  | none => rfl
  | some s =>
    simp only [walkOnePath] at hles ⊢
    by_cases hs : s = ""
    · rw [if_pos hs, if_pos hs]
    · rw [if_neg hs] at hles
      rw [if_neg hs, if_neg hs]
      exact walkFolderComps_complete mk dom (pathComponents s) st fh fh2 g g2 hles

theorem processImportFolder_les (mk : Nat) (fh : FHash) (g : Nat)
    (fol : ImportFolder) : les fh (processImportFolder mk fh g fol).fh := by
  exact les_trans (walkOnePath_les mk true ⟨"", .root, none, none⟩ fh g fol.domain)
    (walkOnePath_les mk false _ _ _ fol.path)

theorem processImportFolder_complete (mk : Nat) (fh fh2 : FHash) (g g2 : Nat)
    (fol : ImportFolder)
    (hles : les (processImportFolder mk fh g fol).fh fh2) :
    processImportFolder mk fh2 g2 fol =
      ⟨(processImportFolder mk fh g fol).fol, fh2, g2, []⟩ := by
  have hles1 : les (walkOnePath mk true ⟨"", .root, none, none⟩ fh g fol.domain).fh fh2 := by
    refine les_trans ?_ hles
    exact walkOnePath_les mk false _ _ _ fol.path
  have h1 := walkOnePath_complete mk true ⟨"", .root, none, none⟩ fh fh2 g g2
    fol.domain hles1
  have h2 := walkOnePath_complete mk false
    (walkOnePath mk true ⟨"", .root, none, none⟩ fh g fol.domain).st
    (walkOnePath mk true ⟨"", .root, none, none⟩ fh g fol.domain).fh fh2
    (walkOnePath mk true ⟨"", .root, none, none⟩ fh g fol.domain).g g2
    fol.path hles
  simp only [processImportFolder, h1, h2]
  rfl

theorem processFolderList_les (mk : Nat) :
    ∀ (fols : List ImportFolder) (fh : FHash) (g : Nat),
      les fh (processFolderList mk fh g fols).fh
  | [], fh, _ => les_refl fh
  | fol :: rest, fh, g =>
    les_trans (processImportFolder_les mk fh g fol)
      (processFolderList_les mk rest _ _)

theorem processFolderList_complete (mk : Nat) :
    ∀ (fols : List ImportFolder) (fh fh2 : FHash) (g g2 : Nat),
      les (processFolderList mk fh g fols).fh fh2 →
      processFolderList mk fh2 g2 fols =
        ⟨(processFolderList mk fh g fols).folders, fh2, g2, []⟩ := by
  intro fols
  induction fols with
  | nil => intro fh fh2 g g2 _; rfl
  | cons fol rest ih =>
    intro fh fh2 g g2 hles
    have hfh1 : (processFolderList mk fh g (fol :: rest)).fh =
        (processFolderList mk (processImportFolder mk fh g fol).fh
          (processImportFolder mk fh g fol).g rest).fh := rfl
    have hlesf : les (processImportFolder mk fh g fol).fh fh2 := by
      refine les_trans ?_ hles
      rw [hfh1]
      exact processFolderList_les mk rest _ _
    have h1 := processImportFolder_complete mk fh fh2 g g2 fol hlesf
    have h2 := ih (processImportFolder mk fh g fol).fh fh2
      (processImportFolder mk fh g fol).g g2 (by rw [← hfh1]; exact hles)
    simp only [processFolderList, h1, h2]
    rfl

theorem processRecordsFA_les (mk : Nat) :
    ∀ (records : List ImportRecord) (fh : FHash) (g : Nat),
      les fh (processRecordsFA mk fh g records).fh
  | [], fh, _ => les_refl fh
  | rec :: rest, fh, g =>
    les_trans (processFolderList_les mk rec.folders fh g)
      (processRecordsFA_les mk rest _ _)

theorem processRecordsFA_complete (mk : Nat) :
    ∀ (records : List ImportRecord) (fh fh2 : FHash) (g g2 : Nat),
      les (processRecordsFA mk fh g records).fh fh2 →
      processRecordsFA mk fh2 g2 records =
        ⟨(processRecordsFA mk fh g records).records, fh2, g2, []⟩ := by
  intro records
  induction records with
  | nil => intro fh fh2 g g2 _; rfl
  | cons rec rest ih =>
    intro fh fh2 g g2 hles
    have hfh1 : (processRecordsFA mk fh g (rec :: rest)).fh =
        (processRecordsFA mk (processFolderList mk fh g rec.folders).fh
          (processFolderList mk fh g rec.folders).g rest).fh := rfl
    have hlesf : les (processFolderList mk fh g rec.folders).fh fh2 := by
      refine les_trans ?_ hles
      rw [hfh1]
      exact processRecordsFA_les mk rest _ _
    have h1 := processFolderList_complete mk rec.folders fh fh2 g g2 hlesf
    have h2 := ih (processFolderList mk fh g rec.folders).fh fh2
      (processFolderList mk fh g rec.folders).g g2 (by rw [← hfh1]; exact hles)
    simp only [processRecordsFA, h1, h2]
    rfl

/-! ## Record Upserter (`prepare_record_add`, lines 421-495) -/

/-- `'{0}|{1}|{2}'.format(rec.title or '', rec.login or '', rec.password or
'')` — the fingerprint pre-image of an import record. -/
def recFingerprint (rec : ImportRecord) : String :=
  rec.title.getD "" ++ "|" ++ rec.login.getD "" ++ "|" ++ rec.password.getD ""

/-- The same fingerprint computed from a cached (decrypted) record. -/
def recordCacheFingerprint (e : RecordCacheEntry) : String :=
  e.title.getD "" ++ "|" ++ e.login.getD "" ++ "|" ++ e.password.getD ""

/-- Record index of lines 422-428: fingerprint pre-image to record uid. -/
def buildRecordHash (cache : List (String × RecordCacheEntry)) :
    List (String × String) :=
  cache.foldl (fun h p => (recordCacheFingerprint p.2, p.1) :: h) []

/-- Lines 463-468: `team_uid` is the first live team with `manage_records`,
or the last team when none has it (the loop assigns before it breaks). -/
def teamUidPick (ts : List SfTeam) : Option String :=
  match ts.find? (·.manage_records) with
  | some t => some t.team_uid
  | none => ts.getLast?.map (·.team_uid)

/-- The decrypted `data` payload of a `record_add` request (lines 474-489). -/
def recDataOf (rec : ImportRecord) : RecData :=
  { title := rec.title.getD ""
    secret1 := rec.login.getD ""
    secret2 := rec.password.getD ""
    link := rec.login_url.getD ""
    notes := rec.notes.getD ""
    custom := rec.custom_fields }

/-- The creation payload of one missed record (lines 438-491): a
`record_add` whose record key is wrapped under the vault master key, placed
in the primary folder (first of `rec.folders`), adding a `folder_key`
(record key wrapped under the shared-folder key) and possibly a `team_uid`
when that folder is Shared / SharedSub.  `none` models the uncaught
`KeyError` of the unguarded `params.shared_folder_cache[sh_uid]` lookup
(line 461). -/
def recordAddReqFor (params : Params) (g : Nat) (rec : ImportRecord) :
    Option RecordAddReq :=
  let record_key := keyOf g
  let record_uid := uidOf g
  let base : RecordAddReq :=
    { record_uid := record_uid
      record_key := Enc.aes record_key params.data_key
      folder_type := .user_folder
      data := Enc.aes (recDataOf rec) record_key }
  let folder_uid : Option String := (rec.folders.head?).bind (·.uid)
  if optTruthy folder_uid then
    match dget params.folder_cache (folder_uid.getD "") with
    | none => some base
    | some folder =>
      if isSharedType folder.type then
        let sh_uid : Option String :=
          if folder.type == .shared_folder then some folder.uid
          else folder.shared_folder_uid
        match sh_uid.bind (dget params.shared_folder_cache) with
        | none => none
        | some sf =>
          some { base with
            folder_uid := some folder.uid
            folder_type :=
              if folder.type == .shared_folder then .shared_folder
              else .shared_folder_folder
            folder_key := some (Enc.aes record_key sf.shared_folder_key)
            team_uid :=
              if sf.key_type = none then
                match sf.teams with
                | some ts => teamUidPick ts
                | none => none
              else none }
      else
        some { base with
          folder_type := .user_folder
          folder_uid :=
            if folder.type ≠ .root then some folder.uid else none }
  else some base

/-- One iteration of the `for rec in records` loop, wired to
`recordAddReqFor` above. -/
def addRecordStep (params : Params) (rhash : List (String × String)) (g : Nat)
    (rec : ImportRecord) : Option (Option Request × ImportRecord × Nat) :=
  match dget rhash (recFingerprint rec) with
  | some record_uid => some (none, { rec with uid := some record_uid }, g)
  | none =>
    (recordAddReqFor params g rec).map fun req =>
      (some (Request.recordAdd req), { rec with uid := some (uidOf g) }, g + 1)

/-- The `for rec in records` loop of `prepare_record_add`. -/
def recordAddLoop (params : Params) (rhash : List (String × String)) :
    Nat → List ImportRecord → Option (List Request × List ImportRecord × Nat)
  | g, [] => some ([], [], g)
  | g, rec :: rest =>
    match addRecordStep params rhash g rec with
    | none => none
    | some (oreq, rec', g') =>
      match recordAddLoop params rhash g' rest with
      | none => none
      | some (reqs, recs, g'') => some (oreq.toList ++ reqs, rec' :: recs, g'')

/-- `prepare_record_add(params, records)`. -/
def prepare_record_add (params : Params) (records : List ImportRecord)
    (g : Nat) : Option (List Request × List ImportRecord × Nat) :=
  recordAddLoop params (buildRecordHash params.record_cache) g records

/-- Modelled from the spec: the snapshot refresh once the operation queue
drains ("the vault snapshot is refreshed after the queue fully drains ... so
later stages see newly created objects"; `api.sync_down` is not part of this
sample).  Each applied `record_add` appears in the record cache under its
uid, carrying the decrypted fields of its `data` payload and its unwrapped
record key. -/
def applyRecordAdds (cache : List (String × RecordCacheEntry))
    (reqs : List Request) : List (String × RecordCacheEntry) :=
  cache ++ reqs.filterMap fun r =>
    match r with
    | .recordAdd q =>
      some (q.record_uid,
        { title := some q.data.pt.title
          login := some q.data.pt.secret1
          password := some q.data.pt.secret2
          record_key_unencrypted := q.record_key.pt })
    | _ => none

/-! ### Lemmas about the record index and the upsert loop -/

theorem dget_foldl_preserve (l : List (String × RecordCacheEntry)) :
    ∀ (h0 : List (String × String)) (k : String),
      dget h0 k ≠ none →
      dget (l.foldl (fun h p => (recordCacheFingerprint p.2, p.1) :: h) h0) k
        ≠ none := by
  induction l with
  | nil => intro h0 k h; exact h
  | cons p rest ih =>
    intro h0 k h
    apply ih
    by_cases hk : k = recordCacheFingerprint p.2
    · simp [dget, hk]
    · simpa [dget, hk] using h

theorem dget_foldl_mem (l : List (String × RecordCacheEntry)) :
    ∀ (h0 : List (String × String)) (k : String),
      (∃ p ∈ l, recordCacheFingerprint p.2 = k) →
      dget (l.foldl (fun h p => (recordCacheFingerprint p.2, p.1) :: h) h0) k
        ≠ none := by
  induction l with
  | nil => intro h0 k h; obtain ⟨p, hp, _⟩ := h; simp at hp
  | cons p rest ih =>
    intro h0 k h
    obtain ⟨q, hq, hfq⟩ := h
    rcases List.mem_cons.mp hq with hq1 | hq2
    · subst hq1
      refine dget_foldl_preserve rest
        ((recordCacheFingerprint q.2, q.1) :: h0) k ?_
      rw [← hfq, dget_cons_self]
      simp
    · exact ih _ k ⟨q, hq2, hfq⟩

theorem addRecordStep_found (params : Params) (rhash : List (String × String))
    (g : Nat) (rec : ImportRecord) (u : String)
    (h : dget rhash (recFingerprint rec) = some u) :
    addRecordStep params rhash g rec =
      some (none, { rec with uid := some u }, g) := by
  simp only [addRecordStep, h]

theorem recordAddReqFor_spec (params : Params) (g : Nat) (rec : ImportRecord)
    (q : RecordAddReq) (h : recordAddReqFor params g rec = some q) :
    q.record_key = Enc.aes (keyOf g) params.data_key
      ∧ q.data = Enc.aes (recDataOf rec) (keyOf g)
      ∧ (q.folder_type = .user_folder → q.folder_key = none)
      ∧ ((q.folder_type = .shared_folder ∨ q.folder_type = .shared_folder_folder) →
          ∃ sk, q.folder_key = some (Enc.aes (keyOf g) sk)) := by
  simp only [recordAddReqFor] at h
  by_cases hb : optTruthy (rec.folders.head?.bind fun x => x.uid) = true
  case neg =>
    rw [if_neg hb] at h
    injection h with h; subst h
    exact ⟨rfl, rfl, fun _ => rfl,
      fun hc => by rcases hc with hc | hc <;> simp at hc⟩
  case pos =>
    rw [if_pos hb] at h
    cases hfc : dget params.folder_cache
        ((rec.folders.head?.bind fun x => x.uid).getD "") with
    | none =>
      simp only [hfc] at h
      injection h with h; subst h
      exact ⟨rfl, rfl, fun _ => rfl,
        fun hc => by rcases hc with hc | hc <;> simp at hc⟩
    | some folder =>
      simp only [hfc] at h
      by_cases hsh : isSharedType folder.type = true
      · rw [if_pos hsh] at h
        cases hsf : ((if (folder.type == FolderType.shared_folder) = true
            then some folder.uid else folder.shared_folder_uid).bind
            (dget params.shared_folder_cache)) with
        | none =>
          simp only [hsf] at h
          exact absurd h (by simp)
        | some sf =>
          simp only [hsf] at h
          injection h with h; subst h
          refine ⟨rfl, rfl, fun hc => ?_, fun _ => ⟨sf.shared_folder_key, rfl⟩⟩
          by_cases hft : (folder.type == FolderType.shared_folder) = true <;>
            simp [hft] at hc
      · rw [if_neg hsh] at h
        injection h with h; subst h
        exact ⟨rfl, rfl, fun _ => rfl,
          fun hc => by rcases hc with hc | hc <;> simp at hc⟩

theorem recordAddLoop_covers (params : Params) (rhash : List (String × String)) :
    ∀ (records : List ImportRecord) (g g' : Nat) (reqs : List Request)
      (recs : List ImportRecord),
      recordAddLoop params rhash g records = some (reqs, recs, g') →
      ∀ rec ∈ records,
        dget rhash (recFingerprint rec) ≠ none ∨
          ∃ q : RecordAddReq, Request.recordAdd q ∈ reqs ∧
            ∃ k, q.data = Enc.aes (recDataOf rec) k := by
  intro records
  induction records with
  | nil => intro g g' reqs recs h rec hrec; simp at hrec
  | cons rec0 rest ih =>
    intro g g' reqs recs h rec hrec
    simp only [recordAddLoop] at h
    cases hstep : addRecordStep params rhash g rec0 with
    | none => rw [hstep] at h; exact absurd h (by simp)
    | some t =>
      obtain ⟨oreq, rec0', g1⟩ := t
      rw [hstep] at h
      dsimp only at h
      cases hloop : recordAddLoop params rhash g1 rest with
      | none => rw [hloop] at h; exact absurd h (by simp)
      | some t2 =>
        obtain ⟨reqs1, recs1, g2⟩ := t2
        rw [hloop] at h
        simp only [Option.some.injEq, Prod.mk.injEq] at h
        obtain ⟨hreqs, hrecs, hg⟩ := h
        subst hreqs
        rcases List.mem_cons.mp hrec with hr0 | hr2
        · subst hr0
          cases hd : dget rhash (recFingerprint rec) with
          | some u => exact Or.inl (by simp)
          | none =>
            simp only [addRecordStep, hd, Option.map_eq_some'] at hstep
            obtain ⟨q0, hq0, hF⟩ := hstep
            have hdata := (recordAddReqFor_spec params g rec q0 hq0).2.1
            have horeq : oreq = some (Request.recordAdd q0) := by
              have := congrArg Prod.fst hF
              simpa using this.symm
            refine Or.inr ⟨q0, ?_, keyOf g, hdata⟩
            rw [horeq]
            exact List.mem_append_left _ (by simp)
        · rcases ih g1 g2 reqs1 recs1 hloop rec hr2 with hl | ⟨q0, hm, hk⟩
          · exact Or.inl hl
          · exact Or.inr ⟨q0, List.mem_append_right _ hm, hk⟩

theorem recordAddLoop_all_found (params : Params)
    (rhash : List (String × String)) :
    ∀ (records : List ImportRecord) (g : Nat),
      (∀ rec ∈ records, dget rhash (recFingerprint rec) ≠ none) →
      ∃ recs, recordAddLoop params rhash g records = some ([], recs, g) := by
  intro records
  induction records with
  | nil => intro g _; exact ⟨[], rfl⟩
  | cons rec0 rest ih =>
    intro g hall
    have h0 := hall rec0 (List.mem_cons_self _ _)
    cases hd : dget rhash (recFingerprint rec0) with
    | none => exact absurd hd h0
    | some u =>
      obtain ⟨recs, hrecs⟩ := ih g (fun r hr => hall r (List.mem_cons_of_mem _ hr))
      refine ⟨{ rec0 with uid := some u } :: recs, ?_⟩
      simp only [recordAddLoop, addRecordStep_found params rhash g rec0 u hd,
        hrecs]
      rfl

/-- C2.  Running the same normalized import twice against the same starting
vault state produces zero `folder_add` and zero `record_add` operations on
the second run.  The first run walks `records` against the index built from
`params`; the refreshed snapshot of the second run is any `params2` whose
rebuilt folder index preserves the first run's final index (`les ... `, the
snapshot-refresh contract of the spec, since `api.sync_down` is outside the
sample) and whose record cache is the first run's cache with the applied
`record_add` requests (`applyRecordAdds`).  The second run's records need
only agree on fingerprints (the importer emits the same titles / logins /
passwords).  Then the second `prepare_folder_add` emits no requests, and the
second `prepare_record_add` emits no requests (and cannot abort). -/
theorem claim_C2
    (params params2 : Params) (records records2 : List ImportRecord)
    (g1 g2 g3 g4 g1' : Nat)
    (reqs1 : List Request) (recs1 : List ImportRecord)
    (hdk : params2.data_key = params.data_key)
    (hfolder : les (prepare_folder_add params records g1).fh
      (buildFolderHash params2))
    (hrec1 : prepare_record_add params records g3 = some (reqs1, recs1, g1'))
    (hfp : ∀ r2 ∈ records2, ∃ r ∈ records, recFingerprint r2 = recFingerprint r)
    (hcache2 : params2.record_cache = applyRecordAdds params.record_cache reqs1) :
    (prepare_folder_add params2 records g2).reqs = []
      ∧ ∃ recs2, prepare_record_add params2 records2 g4 = some ([], recs2, g4) := by
  constructor
  · unfold prepare_folder_add at hfolder ⊢
    rw [hdk]
    rw [processRecordsFA_complete params.data_key records
      (buildFolderHash params) (buildFolderHash params2) g1 g2 hfolder]
  · have hcov := recordAddLoop_covers params (buildRecordHash params.record_cache)
      records g3 g1' reqs1 recs1 hrec1
    have hall : ∀ rec ∈ records2,
        dget (buildRecordHash params2.record_cache) (recFingerprint rec) ≠ none := by
      intro r2 hr2
      obtain ⟨r, hr, hfpr⟩ := hfp r2 hr2
      rw [hfpr, hcache2]
      rcases hcov r hr with hfound | ⟨q, hmem, k, hdata⟩
      · unfold applyRecordAdds buildRecordHash
        rw [List.foldl_append]
        exact dget_foldl_preserve _ _ _ hfound
      · unfold buildRecordHash
        apply dget_foldl_mem
        refine ⟨(q.record_uid,
          { title := some q.data.pt.title
            login := some q.data.pt.secret1
            password := some q.data.pt.secret2
            record_key_unencrypted := q.record_key.pt }), ?_, ?_⟩
        · unfold applyRecordAdds
          apply List.mem_append_right
          exact List.mem_filterMap.mpr ⟨Request.recordAdd q, hmem, rfl⟩
        · rw [hdata]
          rfl
    exact recordAddLoop_all_found params2 _ records2 g4 hall

/-- Concrete import record for the C2 witness: the spec's example
`ImportRecord{title:"Site A", login:"bob", password:"pw1",
folders:[{path:"Work\\Site A"}]}`. -/
def c2rec : ImportRecord :=
  { title := some "Site A", login := some "bob", password := some "pw1"
    folders := [{ path := some "Work\\Site A" }] }

/-- The C2 witness import (one record). -/
def c2records : List ImportRecord := [c2rec]

/-- Empty starting vault for the C2 witness. -/
def c2params : Params := { user := "me@x.com", data_key := 1 }

/-- The single `record_add` the first C2 witness run emits. -/
def c2req : RecordAddReq :=
  { record_uid := "uid0"
    record_key := Enc.aes 0 1
    folder_type := .user_folder
    data := Enc.aes
      { title := "Site A", secret1 := "bob", secret2 := "pw1", link := ""
        notes := "", custom := [] } 0 }

/-- The mutated record after the first C2 witness run. -/
def c2rec1 : ImportRecord := { c2rec with uid := some "uid0" }

/-- Refreshed snapshot after the first C2 witness run: the two created
user folders and the created record. -/
def c2params2 : Params :=
  { user := "me@x.com", data_key := 1
    folder_cache :=
      [("uid0", { uid := "uid0", name := some "Work", type := .user_folder }),
       ("uid1", { uid := "uid1", name := some "Site A",
                  parent_uid := some "uid0", type := .user_folder })]
    record_cache :=
      [("uid0", { title := some "Site A", login := some "bob"
                  password := some "pw1", record_key_unencrypted := 0 })] }

theorem claim_C2_witness :
    (prepare_folder_add c2params2 c2records 5).reqs = []
      ∧ ∃ recs2, prepare_record_add c2params2 c2records 7 = some ([], recs2, 7) := by
  refine claim_C2 c2params c2params2 c2records c2records 0 5 0 7 1
    [Request.recordAdd c2req] [c2rec1] rfl ?_ ?_ ?_ ?_
  · have h : buildFolderHash c2params2 =
        (prepare_folder_add c2params c2records 0).fh := by decide
    rw [h]; exact les_refl _
  · decide
  · decide
  · decide

theorem executeBatch_nil {α : Type} (resps : List BatchResp) :
    executeBatch resps ([] : List α) = [] := by
  rw [executeBatch]

/-- C1 (counterexample).  The claim asserts retry-requeue for every response
acknowledging `k < n` per-operation results; at `k = 0` (a successful
envelope whose `results` list is empty) `execute_batch` requeues nothing
(the guard `len(results) > 0`, line 611): the stepped queue is `[]`, not the
claimed `chunk[0:] ++ rest = [1, 2]`, and the run submits the chunk exactly
once, never retrying it. -/
theorem claim_C1_counterexample :
    batchStep [1, 2] (BatchResp.ok "success" (some [])) = ([] : List Nat)
      ∧ ([] : List Nat) ≠ [1, 2]
      ∧ executeBatch [BatchResp.ok "success" (some [])] [(1 : Nat), 2] = [[1, 2]] := by
  refine ⟨rfl, by decide, ?_⟩
  have h1 : batchStep [(1 : Nat), 2]
      ([BatchResp.ok "success" (some [])].headD .exn) = ([] : List Nat) := rfl
  rw [executeBatch_cons _ _ (by decide), h1, executeBatch_nil]
  rfl

/-- C1 (amended).  For every non-empty queue, the submitted chunk is
`queue[:100]` — at most 100 operations, a prefix whose concatenation with the
rest restores the queue, so order is preserved — and for a successful
response acknowledging `k` results with `0 < k < n` (`n` the chunk size), the
`n - k` unacknowledged operations `chunk[k:]` are reinserted at the front of
the remaining queue in their original relative order, and the loop continues
on exactly that queue; a response acknowledging zero results instead drops
the whole chunk. -/
theorem claim_C1 {α : Type} (queue : List α) (resps : List BatchResp)
    (rs : List String) (hne : queue ≠ [])
    (hk0 : 0 < rs.length) (hkn : rs.length < (queue.take 100).length) :
    (queue.take 100).length ≤ 100
      ∧ queue.take 100 ++ queue.drop 100 = queue
      ∧ batchStep queue (.ok "success" (some rs)) =
          (queue.take 100).drop rs.length ++ queue.drop 100
      ∧ executeBatch (.ok "success" (some rs) :: resps) queue =
          queue.take 100 ::
            executeBatch resps ((queue.take 100).drop rs.length ++ queue.drop 100) := by
  have hstep : batchStep queue (BatchResp.ok "success" (some rs)) =
      (queue.take 100).drop rs.length ++ queue.drop 100 := by
    simp only [batchStep]
    rw [if_pos trivial, if_pos ⟨hk0, hkn⟩]
  refine ⟨?_, List.take_append_drop 100 queue, hstep, ?_⟩
  · rw [List.length_take]; omega
  · rw [executeBatch_cons _ _ hne]
    simp only [List.tail_cons, List.headD_cons, hstep]

theorem claim_C1_witness :
    (([(1 : Nat), 2].take 100).length ≤ 100
      ∧ [(1 : Nat), 2].take 100 ++ [(1 : Nat), 2].drop 100 = [1, 2]
      ∧ batchStep [(1 : Nat), 2] (.ok "success" (some ["s"])) =
          ([(1 : Nat), 2].take 100).drop 1 ++ [(1 : Nat), 2].drop 100
      ∧ executeBatch [.ok "success" (some ["s"])] [(1 : Nat), 2] =
          [(1 : Nat), 2].take 100 ::
            executeBatch [] (([(1 : Nat), 2].take 100).drop 1 ++ [(1 : Nat), 2].drop 100)) :=
  claim_C1 [1, 2] [] ["s"] (by decide) (by decide) (by decide)

/-- C7.  When the remote call for a chunk raises, the `except` clause
swallows the exception, the whole chunk is abandoned (the stepped queue is
`queue[100:]`, which no longer contains the chunk, so it is not retried in
this run), and the loop continues submitting the remaining already-queued
chunks. -/
theorem claim_C7 {α : Type} (resps : List BatchResp) (queue : List α)
    (hne : queue ≠ []) :
    executeBatch (BatchResp.exn :: resps) queue =
      queue.take 100 :: executeBatch resps (queue.drop 100) := by
  rw [executeBatch_cons _ _ hne]
  rfl

theorem claim_C7_witness :
    executeBatch [BatchResp.exn] [(5 : Nat)] =
      [(5 : Nat)].take 100 :: executeBatch [] ([(5 : Nat)].drop 100) :=
  claim_C7 [] [5] (by decide)

/-- Existing vault for the C8 counterexample: one shared folder `A`. -/
def c8params : Params :=
  { user := "me@x.com", data_key := 1
    folder_cache :=
      [("sf1", { uid := "sf1", name := some "A", type := .shared_folder })]
    shared_folder_cache := [("sf1", { shared_folder_key := 7 })] }

/-- C8 import: one record whose declared ownership boundary is the path
`A\\B`, whose last (boundary) segment must be created under the existing
shared folder `A`. -/
def c8records : List ImportRecord :=
  [{ title := some "T", folders := [{ domain := some "A\\B" }] }]

/-- C8 (counterexample).  The boundary segment `B` of domain `A\\B` is
created while its parent (the matched existing node `A`) is already Shared:
the claim requires tier Shared ("Shared exactly when the segment is the
declared ownership boundary") and requires a SharedSub node to have no key
of its own; the code instead emits `folder_type = shared_folder_folder`
(SharedSub) for this boundary segment, generates a fresh key of its own
(`keyOf 0 = 0`) and wraps that key under the ancestor shared-folder key `7`
rather than giving the node no key. -/
theorem claim_C8_counterexample :
    (prepare_folder_add c8params c8records 0).reqs =
      [Request.folderAdd
        { folder_uid := "uid0", folder_type := .shared_folder_folder
          key := Enc.aes 0 7, parent_uid := none
          shared_folder_uid := some "sf1", name := none
          data := Enc.aes "B" 0 }]
      ∧ FolderType.shared_folder_folder ≠ FolderType.shared_folder := by
  refine ⟨by decide, by decide⟩

/-- C8 (amended).  For every folder node created by the Folder Tree
Builder: its tier is Shared exactly when the segment is the declared
ownership boundary AND the parent tier is Root or User; SharedSub exactly
when the parent tier is Shared or SharedSub (even for a boundary segment);
User otherwise.  Every new node (of any tier) receives a fresh symmetric
key from the supply; that key is wrapped under the tracked ancestor
shared-folder key when the node is SharedSub and such a key is available,
and under the vault master key otherwise; the supply advances by one. -/
theorem claim_C8 (mk : Nat) (st : WalkSt) (g : Nat) (is_shared : Bool)
    (comp : String) :
    ((createFolderNode mk st g is_shared comp).1.folder_type = .shared_folder ↔
        (is_shared = true ∧ (st.parentType = .user_folder ∨ st.parentType = .root)))
      ∧ ((createFolderNode mk st g is_shared comp).1.folder_type = .shared_folder_folder ↔
        (st.parentType = .shared_folder ∨ st.parentType = .shared_folder_folder))
      ∧ ((createFolderNode mk st g is_shared comp).1.folder_type = .user_folder ↔
        (is_shared = false ∧ (st.parentType = .user_folder ∨ st.parentType = .root)))
      ∧ (createFolderNode mk st g is_shared comp).1.key = Enc.aes (keyOf g)
          (if (st.parentType = .shared_folder ∨ st.parentType = .shared_folder_folder)
              ∧ optTruthy st.psfUid = true ∧ st.psfKey.isSome = true
           then st.psfKey.getD 0 else mk)
      ∧ (createFolderNode mk st g is_shared comp).2.2 = g + 1 := by
  refine ⟨?_, ?_, ?_, ?_, rfl⟩ <;>
    cases hp : st.parentType <;> cases is_shared <;>
      simp [createFolderNode, hp, Bool.and_eq_true]

/-! ## Shared-folder import (`prepare_shared_folder_add`, lines 185-338) -/

/-- Result of the shared-folder path walk (lines 224-272). -/
structure SWalk where
  skip : Bool
  parentUid : String
  parentType : FolderType
  parentKey : Option Nat
  fh : FHash
  g : Nat
  reqs : List Request
deriving DecidableEq, Repr

/-- The `for i in range(len(comps))` loop of `prepare_shared_folder_add`:
a missing segment is created (`shared_folder` for the last segment,
`user_folder` otherwise, key wrapped under the vault master key); a matched
segment whose stored tier differs from the tier required at that position
(Shared for the last, User for a plain segment) sets `skip_folder` and
breaks. -/
def sharedWalk (mk : Nat) :
    String → FolderType → Option Nat → FHash → Nat → List String → SWalk
  | pu, pt, pk, fh, g, [] => ⟨false, pu, pt, pk, fh, g, []⟩
  | pu, _, _, fh, g, c :: rest =>
    let digest := folderDigest c pu
    match dget fh digest with
    | none =>
      let folder_uid := uidOf g
      let folder_type :=
        if rest.isEmpty then FolderType.shared_folder else .user_folder
      let folder_key := keyOf g
      let req : FolderAddReq :=
        { folder_uid := folder_uid
          folder_type := folder_type
          key := Enc.aes folder_key mk
          parent_uid := if pu ≠ "" then some pu else none
          name :=
            if folder_type = .shared_folder then some (Enc.aes c folder_key)
            else none
          data := Enc.aes c folder_key }
      let fh' := (digest, (folder_uid, folder_type,
        if folder_type = .shared_folder then some folder_key else none)) :: fh
      let r := sharedWalk mk folder_uid folder_type (some folder_key) fh' (g + 1) rest
      ⟨r.skip, r.parentUid, r.parentType, r.parentKey, r.fh, r.g,
       Request.folderAdd req :: r.reqs⟩
    | some v =>
      let skipHere :=
        if rest.isEmpty then v.2.1 ≠ FolderType.shared_folder
        else v.2.1 ≠ FolderType.user_folder
      if skipHere then ⟨true, v.1, v.2.1, v.2.2, fh, g, []⟩
      else sharedWalk mk v.1 v.2.1 v.2.2 fh g rest

/-- Grantee resolution (lines 288-300): with a truthy preset uid and a
non-empty team directory, the grantee is a team iff the uid is a directory
key; otherwise the name is run through `parseaddr` first — only a name that
does NOT parse as an email is resolved as a team by case-insensitive name
match (its uid reset to the match, or dropped).  A name that parses as an
email stays a user grantee.  Returns `(is_team, perm.uid after mutation)`. -/
def resolveGrantee (pa : String → String) (teams : List Team)
    (perm : Permission) : Bool × Option String :=
  if optTruthy perm.uid ∧ teams ≠ [] then
    ((teams.find? fun t => t.team_uid = perm.uid.getD "").isSome, perm.uid)
  else
    let email := pa perm.name
    let is_team := email = ""
    if is_team then
      (true,
       (teams.find? fun t => toLowerStr t.name = toLowerStr perm.name).map
         (·.team_uid))
    else (false, perm.uid)

/-- Entering the user branch creates the `add_users` key (line 313-314) even
when the grant is subsequently dropped. -/
def ensureUsers (req : SfUpdateReq) : SfUpdateReq :=
  { req with add_users := some (req.add_users.getD []) }

/-- Processing one declared Permission of a folder's update request (lines
287-335).  `pk` is the walked folder's shared-folder key (`parent_key`);
`none` output models the uncaught exception of wrapping with a `None`
parent key. -/
def processPerm (pa : String → String) (importRsa : String → Option Nat)
    (user : String) (mk : Nat) (teams : List Team)
    (emails : List (String × Option String)) (pk : Option Nat)
    (req : SfUpdateReq) (perm : Permission) : Option SfUpdateReq :=
  match resolveGrantee pa teams perm with
  | (true, puid) =>
    match puid with
    | none => some req
    | some uid =>
      if uid = "" then some req
      else
        match teams.find? (fun t => t.team_uid = uid) with
        | none => some req
        | some team =>
          match pk with
          | none => none
          | some k =>
            some { req with add_teams := some (req.add_teams.getD [] ++
              [{ team_uid := uid, manage_users := perm.manage_users
                 manage_records := perm.manage_records
                 shared_folder_key := Enc.aes k team.team_key }]) }
  | (false, _) =>
    let req := ensureUsers req
    let email := toLowerStr perm.name
    if email = toLowerStr user then
      match pk with
      | none => none
      | some k =>
        some { req with add_users := some (req.add_users.getD [] ++
          [{ username := email, manage_users := perm.manage_users
             manage_records := perm.manage_records
             shared_folder_key := Enc.aes k mk }]) }
    else
      match dget emails email with
      | some (some public_key) =>
        match importRsa public_key with
        | some rsa_key =>
          match pk with
          | none => none
          | some k =>
            some { req with add_users := some (req.add_users.getD [] ++
              [{ username := email, manage_users := perm.manage_users
                 manage_records := perm.manage_records
                 shared_folder_key := Enc.rsa k rsa_key }]) }
        | none => some req
      | _ => some req

/-- The `for perm in fol.permissions` loop. -/
def foldPerms (pa : String → String) (importRsa : String → Option Nat)
    (user : String) (mk : Nat) (teams : List Team)
    (emails : List (String × Option String)) (pk : Option Nat) :
    SfUpdateReq → List Permission → Option SfUpdateReq
  | req, [] => some req
  | req, perm :: rest =>
    match processPerm pa importRsa user mk teams emails pk req perm with
    | none => none
    | some req' => foldPerms pa importRsa user mk teams emails pk req' rest

/-- Processing one `ImportSharedFolder` (lines 224-336): walk the path; when
the walk did not skip and resolved to a shared folder, build the
`shared_folder_update` request with all declared permissions and append it
after the walk's `folder_add` requests. -/
def processSharedFolder (pa : String → String) (importRsa : String → Option Nat)
    (user : String) (mk : Nat) (teams : List Team)
    (emails : List (String × Option String)) (fh : FHash) (g : Nat)
    (fol : ImportSharedFolder) : Option (List Request × FHash × Nat) :=
  let w := sharedWalk mk "" .root none fh g (pathComponents fol.path)
  if w.skip = false ∧ w.parentType = .shared_folder then
    let req0 : SfUpdateReq :=
      { shared_folder_uid := w.parentUid
        manage_users := some fol.manage_users
        manage_records := some fol.manage_records
        can_edit := some fol.can_edit
        can_share := some fol.can_share }
    match foldPerms pa importRsa user mk teams emails w.parentKey req0
        fol.permissions with
    | none => none
    | some r => some (w.reqs ++ [Request.sharedFolderUpdate r], w.fh, w.g)
  else some (w.reqs, w.fh, w.g)

/-- The email collection pass (lines 200-208): for every permission whose
raw name is not yet a key, a name that parses as an email different from the
operator registers the lowercased email, mapped to no public key yet. -/
def buildEmails (pa : String → String) (user : String)
    (folders : List ImportSharedFolder) : List (String × Option String) :=
  folders.foldl
    (fun emails fol =>
      fol.permissions.foldl
        (fun emails perm =>
          match dget emails perm.name with
          | some _ => emails
          | none =>
            let email := pa perm.name
            if email ≠ "" ∧ email ≠ user then (toLowerStr email, none) :: emails
            else emails)
        emails)
    []

/-- The `public_keys` round trip (lines 209-221): `none` models a raised /
malformed response (emails left unresolved); otherwise each returned
`(key_owner, public_key)` entry is assigned into the dict. -/
def applyPkResponse (emails : List (String × Option String))
    (resp : Option (List (String × String))) : List (String × Option String) :=
  match resp with
  | none => emails
  | some pks => pks.foldl (fun em p => (p.1, some p.2) :: em) emails

/-- The `for fol in folders` loop of `prepare_shared_folder_add`. -/
def sfaLoop (pa : String → String) (importRsa : String → Option Nat)
    (user : String) (mk : Nat) (teams : List Team)
    (emails : List (String × Option String)) :
    FHash → Nat → List ImportSharedFolder → Option (List Request)
  | _, _, [] => some []
  | fh, g, fol :: rest =>
    match processSharedFolder pa importRsa user mk teams emails fh g fol with
    | none => none
    | some (reqs, fh', g') =>
      match sfaLoop pa importRsa user mk teams emails fh' g' rest with
      | none => none
      | some rest' => some (reqs ++ rest')

/-- `prepare_shared_folder_add(params, folders)`, with `parseaddr`, RSA
key-import and the directory's `public_keys` response supplied as
parameters (external collaborators). -/
def prepare_shared_folder_add (pa : String → String)
    (importRsa : String → Option Nat)
    (pkResponse : Option (List (String × String))) (params : Params)
    (folders : List ImportSharedFolder) (g : Nat) : Option (List Request) :=
  let emails0 := buildEmails pa params.user folders
  let emails :=
    if emails0.isEmpty then emails0 else applyPkResponse emails0 pkResponse
  sfaLoop pa importRsa params.user params.data_key params.team_cache emails
    (buildFolderHash params) g folders

theorem sharedWalk_reqs_folderAdd (mk : Nat) :
    ∀ (comps : List String) (pu : String) (pt : FolderType) (pk : Option Nat)
      (fh : FHash) (g : Nat),
      ∀ r ∈ (sharedWalk mk pu pt pk fh g comps).reqs,
        ∃ q, r = Request.folderAdd q := by
  intro comps
  induction comps with
  | nil => intro pu pt pk fh g r hr; simp [sharedWalk] at hr
  | cons c rest ih =>
    intro pu pt pk fh g r hr
    simp only [sharedWalk] at hr
    cases hd : dget fh (folderDigest c pu) with
    | none =>
      rw [hd] at hr
      dsimp only at hr
      rcases List.mem_cons.mp hr with h1 | h2
      · exact ⟨_, h1⟩
      · exact ih _ _ _ _ _ r h2
    | some v =>
      rw [hd] at hr
      dsimp only at hr
      split at hr <;> split at hr <;>
        first
          | exact ih _ _ _ _ _ r hr
          | simp at hr

theorem sharedWalk_les (mk : Nat) :
    ∀ (comps : List String) (pu : String) (pt : FolderType) (pk : Option Nat)
      (fh : FHash) (g : Nat),
      les fh (sharedWalk mk pu pt pk fh g comps).fh := by
  intro comps
  induction comps with
  | nil => intro pu pt pk fh g; exact les_refl fh
  | cons c rest ih =>
    intro pu pt pk fh g
    simp only [sharedWalk]
    cases hd : dget fh (folderDigest c pu) with
    | none =>
      dsimp only
      exact les_trans (les_insert_fresh fh _ _ hd) (ih _ _ _ _ _)
    | some v =>
      dsimp only
      split <;> split <;>
        first
          | exact les_refl fh
          | exact ih _ _ _ _ _

/-- Existing vault for the C3 counterexample: a plain user folder named
`A` at root. -/
def c3params : Params :=
  { user := "me@x.com", data_key := 1
    folder_cache :=
      [("u1", { uid := "u1", name := some "A", type := .user_folder })] }

/-- C3 import record: its folder declares `A` as the shared-ownership
boundary (`domain`), whose fingerprint matches the existing *User* node —
a tier conflict at the boundary position. -/
def c3rec : ImportRecord :=
  { title := some "T", login := some "l", password := some "p"
    folders := [{ domain := some "A" }] }

/-- The `record_add` the code emits for the conflicting placement. -/
def c3req : RecordAddReq :=
  { record_uid := "uid0"
    record_key := Enc.aes 0 1
    folder_type := .user_folder
    folder_uid := some "u1"
    data := Enc.aes
      { title := "T", secret1 := "l", secret2 := "p", link := "", notes := ""
        custom := [] } 0 }

/-- The C3 record after both passes: folder resolved to the conflicting
User node `u1`, record created and placed there. -/
def c3rec1 : ImportRecord :=
  { c3rec with
    folders := [{ domain := some "A", uid := some "u1" }],
    uid := some "uid0" }

/-- C3 (counterexample).  The boundary segment `A` fingerprint-matches an
existing node of tier User — per the claim, placement must be aborted and
the record not linked into that folder.  The record-folder path
(`prepare_folder_add`) has no tier check: it adopts the User node (the
folder resolves to uid `u1`), and `prepare_record_add` then places the
record into that conflicting folder (`folder_uid = "u1"`). -/
theorem claim_C3_counterexample :
    (prepare_folder_add c3params [c3rec] 0).reqs = []
      ∧ (dget c3params.folder_cache "u1").map (·.type) =
          some FolderType.user_folder
      ∧ prepare_record_add c3params
          (prepare_folder_add c3params [c3rec] 0).records 0 =
        some ([Request.recordAdd c3req], [c3rec1], 1)
      ∧ c3req.folder_uid = some "u1"
      ∧ c3req.folder_type = .user_folder := by
  refine ⟨by decide, by decide, by decide, by decide, by decide⟩

/-- C3 (amended).  Tier conflicts abort placement only in the shared-folder
path: when the walk of `prepare_shared_folder_add` meets a matched
segment of the wrong tier it sets `skip_folder`, and then (1) the folder
contributes only the `folder_add` requests already created for earlier
missing segments — no `shared_folder_update` is emitted and the conflicting
matched segment itself gets no `folder_add` (every emitted request has a
fresh fingerprint); (2) the index is only ever extended, never rewritten, so
the existing node is never retyped; and, by contrast, (3) the record-folder
path (`prepare_folder_add`) performs no tier check at all: a matched
fingerprint is adopted unconditionally, whatever its tier, with no request
emitted and the index unchanged.  No branch can raise. -/
theorem claim_C3 (pa : String → String) (importRsa : String → Option Nat)
    (user : String) (mk : Nat) (teams : List Team)
    (emails : List (String × Option String)) (fh : FHash) (g : Nat)
    (fol : ImportSharedFolder)
    (hskip : (sharedWalk mk "" .root none fh g (pathComponents fol.path)).skip
      = true) :
    (processSharedFolder pa importRsa user mk teams emails fh g fol =
        some ((sharedWalk mk "" .root none fh g (pathComponents fol.path)).reqs,
              (sharedWalk mk "" .root none fh g (pathComponents fol.path)).fh,
              (sharedWalk mk "" .root none fh g (pathComponents fol.path)).g))
      ∧ (∀ r ∈ (sharedWalk mk "" .root none fh g (pathComponents fol.path)).reqs,
          ∃ q, r = Request.folderAdd q)
      ∧ les fh (sharedWalk mk "" .root none fh g (pathComponents fol.path)).fh
      ∧ (∀ (st : WalkSt) (fh' : FHash) (g' : Nat) (dom last : Bool)
          (c : String) (v : String × FolderType × Option Nat),
          dget fh' (folderDigest c st.parentUid) = some v →
          folderAddStep mk st fh' g' dom last c = ⟨adopt st v, fh', g', none⟩) := by
  refine ⟨?_, sharedWalk_reqs_folderAdd mk _ _ _ _ _ _,
    sharedWalk_les mk _ _ _ _ _ _,
    fun st fh' g' dom last c v hv =>
      folderAddStep_found mk st fh' g' dom last c v hv⟩
  simp only [processSharedFolder]
  rw [if_neg (by simp [hskip])]

/-- The shared-folder import object for the C3 witness: path `A` collides
with the existing User node of `c3params`. -/
def c3fol : ImportSharedFolder := { path := "A" }

theorem claim_C3_witness :
    processSharedFolder simpleParseAddr (fun _ => none) "me@x.com" 1 [] []
        (buildFolderHash c3params) 0 c3fol =
      some ((sharedWalk 1 "" .root none (buildFolderHash c3params) 0
              (pathComponents c3fol.path)).reqs,
            (sharedWalk 1 "" .root none (buildFolderHash c3params) 0
              (pathComponents c3fol.path)).fh,
            (sharedWalk 1 "" .root none (buildFolderHash c3params) 0
              (pathComponents c3fol.path)).g) :=
  (claim_C3 simpleParseAddr (fun _ => none) "me@x.com" 1 [] []
    (buildFolderHash c3params) 0 c3fol (by decide)).1

/-- A team directory containing a team whose name parses as an email. -/
def c5teams : List Team := [{ name := "ops@x.com", team_uid := "t9", team_key := 4 }]

/-- A declared permission naming that team (no preset uid). -/
def c5perm : Permission :=
  { name := "ops@x.com", manage_users := true, manage_records := true }

/-- Vault / params for the C5 counterexample. -/
def c5params : Params :=
  { user := "me@y.com", data_key := 1, team_cache := c5teams }

/-- Shared-folder import declaring that permission on a new folder. -/
def c5fol : ImportSharedFolder :=
  { path := "NewSF", manage_users := true, manage_records := true
    can_edit := true, can_share := true, permissions := [c5perm] }

/-- The `folder_add` created for `NewSF`. -/
def c5folderReq : FolderAddReq :=
  { folder_uid := "uid0", folder_type := .shared_folder
    key := Enc.aes 0 1, name := some (Enc.aes "NewSF" 0)
    data := Enc.aes "NewSF" 0 }

/-- The `shared_folder_update` the code emits: the grantee lands in
`add_users`, not `add_teams`. -/
def c5update : SfUpdateReq :=
  { shared_folder_uid := "uid0"
    manage_users := some true, manage_records := some true
    can_edit := some true, can_share := some true
    add_users := some [{ username := "ops@x.com", manage_users := true
                         manage_records := true
                         shared_folder_key := Enc.rsa 0 11 }] }

/-- C5 (counterexample).  The grantee name `ops@x.com` has a case-insensitive
team-directory match, so per the claim it must resolve as a team grantee.
The code checks `parseaddr` first: a name that parses as an email is treated
as a user grantee without ever consulting the team directory — resolution
yields `is_team = false`, and end to end the folder's update carries the
grant in `add_users` (RSA-wrapped to the directory key) with no `add_teams`
at all. -/
theorem claim_C5_counterexample :
    resolveGrantee simpleParseAddr c5teams c5perm = (false, none)
      ∧ (c5teams.find? fun t =>
          toLowerStr t.name = toLowerStr c5perm.name).isSome = true
      ∧ prepare_shared_folder_add simpleParseAddr (fun _ => some 11)
          (some [("ops@x.com", "PK")]) c5params [c5fol] 0 =
        some [Request.folderAdd c5folderReq, Request.sharedFolderUpdate c5update] := by
  refine ⟨by decide, by decide, by decide⟩

/-- C5 (amended).  Grantee resolution: with a truthy preset uid and a
non-empty team directory, the grantee is a team iff that uid is in the
directory.  Otherwise the name is run through `parseaddr` FIRST: a name that
parses as an email is treated as a user grantee (no team match attempted,
even when a team of that name exists); only a name that does not parse as an
email is resolved as a team by a case-insensitive name match against the
directory (grant later dropped when no team matches). -/
theorem claim_C5 (pa : String → String) (teams : List Team) (perm : Permission) :
    ((optTruthy perm.uid = true ∧ teams ≠ []) →
      resolveGrantee pa teams perm =
        ((teams.find? fun t => t.team_uid = perm.uid.getD "").isSome, perm.uid))
      ∧ (¬ (optTruthy perm.uid = true ∧ teams ≠ []) →
          (pa perm.name ≠ "" → resolveGrantee pa teams perm = (false, perm.uid))
          ∧ (pa perm.name = "" → resolveGrantee pa teams perm =
              (true, (teams.find? fun t =>
                toLowerStr t.name = toLowerStr perm.name).map (·.team_uid)))) := by
  constructor
  · intro hyes
    simp [resolveGrantee, hyes]
  · intro hno
    constructor <;> intro he <;> simp [resolveGrantee, hno, he]

theorem claim_C5_witness :
    resolveGrantee simpleParseAddr c5teams { name := "bob@x.com" } =
      (false, none) :=
  ((claim_C5 simpleParseAddr c5teams { name := "bob@x.com" }).2 (by decide)).1
    (by decide)

/-- Request-level ensure: a dropped user grant leaves only the (possibly
empty) `add_users` key behind on the update request. -/
def ensureReq : Request → Request
  | .sharedFolderUpdate r => .sharedFolderUpdate (ensureUsers r)
  | r => r

theorem processPerm_ensureUsers (pa : String → String)
    (importRsa : String → Option Nat) (user : String) (mk : Nat)
    (teams : List Team) (emails : List (String × Option String))
    (pk : Option Nat) (req : SfUpdateReq) (perm : Permission) :
    processPerm pa importRsa user mk teams emails pk (ensureUsers req) perm =
      (processPerm pa importRsa user mk teams emails pk req perm).map
        ensureUsers := by
  unfold processPerm
  cases hres : resolveGrantee pa teams perm with
  | mk ist puid =>
    cases ist
    · dsimp only
      by_cases hself : toLowerStr perm.name = toLowerStr user
      · cases pk <;> simp [hself, ensureUsers]
      · cases hem : dget emails (toLowerStr perm.name) with
        | none => simp [hself, hem, ensureUsers]
        | some opk =>
          cases opk with
          | none => simp [hself, hem, ensureUsers]
          | some pubkey =>
            cases hir : importRsa pubkey with
            | none => simp [hself, hem, hir, ensureUsers]
            | some rk => cases pk <;> simp [hself, hem, hir, ensureUsers]
    · dsimp only
      cases puid with
      | none => rfl
      | some uid =>
        by_cases hu : uid = ""
        · simp [hu]
        · cases hf : teams.find? (fun t => t.team_uid = uid) with
          | none => simp [hu, hf]
          | some team => cases pk <;> simp [hu, hf, ensureUsers]

theorem foldPerms_ensureUsers (pa : String → String)
    (importRsa : String → Option Nat) (user : String) (mk : Nat)
    (teams : List Team) (emails : List (String × Option String))
    (pk : Option Nat) :
    ∀ (perms : List Permission) (req : SfUpdateReq),
      foldPerms pa importRsa user mk teams emails pk (ensureUsers req) perms =
        (foldPerms pa importRsa user mk teams emails pk req perms).map
          ensureUsers := by
  intro perms
  induction perms with
  | nil => intro req; rfl
  | cons p rest ih =>
    intro req
    simp only [foldPerms]
    rw [processPerm_ensureUsers]
    cases h : processPerm pa importRsa user mk teams emails pk req p with
    | none => rfl
    | some r' => exact ih r'

theorem processPerm_dropped (pa : String → String)
    (importRsa : String → Option Nat) (user : String) (mk : Nat)
    (teams : List Team) (emails : List (String × Option String))
    (pk : Option Nat) (req : SfUpdateReq) (p : Permission)
    (huser : (resolveGrantee pa teams p).1 = false)
    (hself : toLowerStr p.name ≠ toLowerStr user)
    (hkey : dget emails (toLowerStr p.name) = none
        ∨ dget emails (toLowerStr p.name) = some none
        ∨ ∃ pub, dget emails (toLowerStr p.name) = some (some pub)
            ∧ importRsa pub = none) :
    processPerm pa importRsa user mk teams emails pk req p =
      some (ensureUsers req) := by
  unfold processPerm
  cases hres : resolveGrantee pa teams p with
  | mk ist puid =>
    rw [hres] at huser
    dsimp only at huser
    subst huser
    dsimp only
    rw [if_neg hself]
    rcases hkey with h | h | ⟨pub, h, hir⟩
    · simp [h]
    · simp [h]
    · simp [h, hir]

theorem foldPerms_insert_dropped (pa : String → String)
    (importRsa : String → Option Nat) (user : String) (mk : Nat)
    (teams : List Team) (emails : List (String × Option String))
    (pk : Option Nat) (p : Permission) (l2 : List Permission)
    (huser : (resolveGrantee pa teams p).1 = false)
    (hself : toLowerStr p.name ≠ toLowerStr user)
    (hkey : dget emails (toLowerStr p.name) = none
        ∨ dget emails (toLowerStr p.name) = some none
        ∨ ∃ pub, dget emails (toLowerStr p.name) = some (some pub)
            ∧ importRsa pub = none) :
    ∀ (l1 : List Permission) (req : SfUpdateReq),
      foldPerms pa importRsa user mk teams emails pk req (l1 ++ p :: l2) =
        (foldPerms pa importRsa user mk teams emails pk req (l1 ++ l2)).map
          ensureUsers := by
  intro l1
  induction l1 with
  | nil =>
    intro req
    simp only [List.nil_append, foldPerms]
    rw [processPerm_dropped pa importRsa user mk teams emails pk req p huser
      hself hkey]
    exact foldPerms_ensureUsers pa importRsa user mk teams emails pk l2 req
  | cons a rest ih =>
    intro req
    simp only [List.cons_append, foldPerms]
    cases h : processPerm pa importRsa user mk teams emails pk req a with
    | none => rfl
    | some r' => exact ih r'

theorem map_ensureReq_folderAdds (l : List Request)
    (h : ∀ r ∈ l, ∃ q, r = Request.folderAdd q) : l.map ensureReq = l := by
  induction l with
  | nil => rfl
  | cons r rest ih =>
    obtain ⟨q, hq⟩ := h r (List.mem_cons_self _ _)
    subst hq
    rw [List.map_cons]
    rw [ih fun x hx => h x (List.mem_cons_of_mem _ hx)]
    rfl

/-- C6.  A user grantee whose public key cannot be resolved (the email never
reached the lookup dict, the directory returned no key, or the returned key
fails RSA import) costs only that single grant: processing the folder with
the permission list `l1 ++ [p] ++ l2` yields exactly the result of
processing `l1 ++ l2` — the same `folder_add` requests, the same
`shared_folder_update` with the same remaining `add_users` / `add_teams`
entries (up to the then-empty `add_users` key the user branch always
creates), the same index and supply — and in particular succeeds iff the
rest succeeds, so the run never aborts for this reason. -/
theorem claim_C6 (pa : String → String) (importRsa : String → Option Nat)
    (user : String) (mk : Nat) (teams : List Team)
    (emails : List (String × Option String)) (fh : FHash) (g : Nat)
    (fol : ImportSharedFolder) (p : Permission) (l1 l2 : List Permission)
    (huser : (resolveGrantee pa teams p).1 = false)
    (hself : toLowerStr p.name ≠ toLowerStr user)
    (hkey : dget emails (toLowerStr p.name) = none
        ∨ dget emails (toLowerStr p.name) = some none
        ∨ ∃ pub, dget emails (toLowerStr p.name) = some (some pub)
            ∧ importRsa pub = none) :
    processSharedFolder pa importRsa user mk teams emails fh g
        { fol with permissions := l1 ++ p :: l2 } =
      (processSharedFolder pa importRsa user mk teams emails fh g
        { fol with permissions := l1 ++ l2 }).map
        fun r => (r.1.map ensureReq, r.2.1, r.2.2) := by
  simp only [processSharedFolder]
  by_cases hc : (sharedWalk mk "" FolderType.root none fh g
      (pathComponents fol.path)).skip = false
    ∧ (sharedWalk mk "" FolderType.root none fh g
      (pathComponents fol.path)).parentType = FolderType.shared_folder
  · rw [if_pos hc, if_pos hc]
    rw [foldPerms_insert_dropped pa importRsa user mk teams emails _ p l2
      huser hself hkey l1]
    cases hfp : foldPerms pa importRsa user mk teams emails
        (sharedWalk mk "" FolderType.root none fh g
          (pathComponents fol.path)).parentKey
        { shared_folder_uid := (sharedWalk mk "" FolderType.root none fh g
            (pathComponents fol.path)).parentUid
          manage_users := some fol.manage_users
          manage_records := some fol.manage_records
          can_edit := some fol.can_edit
          can_share := some fol.can_share } (l1 ++ l2) with
    | none => rfl
    | some r =>
      simp only [Option.map_some', Option.map]
      rw [List.map_append,
        map_ensureReq_folderAdds _ (sharedWalk_reqs_folderAdd mk _ _ _ _ _ _)]
      rfl
  · rw [if_neg hc, if_neg hc]
    simp only [Option.map_some']
    rw [map_ensureReq_folderAdds _ (sharedWalk_reqs_folderAdd mk _ _ _ _ _ _)]

/-- Folder for the C6 witness. -/
def c6fol : ImportSharedFolder :=
  { path := "NewSF", manage_users := true, manage_records := true
    can_edit := true, can_share := true }

/-- A user grantee whose directory lookup returned no public key. -/
def c6perm : Permission := { name := "carol@x.com" }

theorem claim_C6_witness :
    processSharedFolder simpleParseAddr (fun _ => some 11) "me@y.com" 1 []
        [("carol@x.com", none)] [] 0 { c6fol with permissions := [c6perm] } =
      (processSharedFolder simpleParseAddr (fun _ => some 11) "me@y.com" 1 []
        [("carol@x.com", none)] [] 0 { c6fol with permissions := [] }).map
        (fun r => (r.1.map ensureReq, r.2.1, r.2.2)) :=
  claim_C6 simpleParseAddr (fun _ => some 11) "me@y.com" 1 []
    [("carol@x.com", none)] [] 0 c6fol c6perm [] [] (by decide) (by decide)
    (Or.inr (Or.inl (by decide)))

/-! ## Permission correction (`prepare_record_permission`, lines 558-589) -/

/-- One folder of one record (lines 564-588): if the folder resolves to a
live shared folder whose ACL has an entry for this record, and the declared
`(can_share, can_edit)` differs from the live pair, emit one
`shared_folder_update` with a single `update_records` entry — otherwise
nothing. -/
def recPermForFolder (params : Params) (recUid : String)
    (fol : ImportFolder) : List Request :=
  match fol.uid with
  | none => []
  | some fuid =>
    if fuid = "" then []
    else
      match dget params.folder_cache fuid with
      | none => []
      | some folder =>
        if isSharedType folder.type then
          match (if folder.type == FolderType.shared_folder_folder then
              folder.shared_folder_uid else some folder.uid) with
          | none => []
          | some sf_uid =>
            match dget params.shared_folder_cache sf_uid with
            | none => []
            | some sf =>
              match sf.records with
              | none => []
              | some sfrs =>
                match sfrs.find? (fun sfr => sfr.record_uid = recUid) with
                | none => []
                | some sfr =>
                  if some sfr.can_share ≠ fol.can_share
                      ∨ some sfr.can_edit ≠ fol.can_edit then
                    [Request.sharedFolderUpdate
                      { shared_folder_uid := sf_uid,
                        update_records := some [{ record_uid := recUid,
                                                  shared_folder_uid := sf_uid,
                                                  can_edit := fol.can_edit,
                                                  can_share := fol.can_share }] }]
                  else []
        else []

/-- The `for fol in rec.folders` loop. -/
def recPermFolders (params : Params) (recUid : String) :
    List ImportFolder → List Request
  | [] => []
  | fol :: rest =>
    recPermForFolder params recUid fol ++ recPermFolders params recUid rest

/-- `prepare_record_permission(params, records)`. -/
def prepare_record_permission (params : Params) :
    List ImportRecord → List Request
  | [] => []
  | rec :: rest =>
    (if rec.folders ≠ [] then
      match rec.uid with
      | some ruid =>
        if ruid ≠ "" ∧ (dget params.record_cache ruid).isSome then
          recPermFolders params ruid rec.folders
        else []
      | none => []
    else []) ++ prepare_record_permission params rest

/-- The reason a `prepare_record_permission` request exists: a live ACL
entry for the record whose `(can_share, can_edit)` differs from the
declared pair. -/
def c4differs (params : Params) (recUid : String) (fol : ImportFolder)
    (req : Request) : Prop :=
  ∃ (sf_uid : String) (sf : SfCacheEntry) (sfrs : List SfRec) (sfr : SfRec),
    dget params.shared_folder_cache sf_uid = some sf
      ∧ sf.records = some sfrs
      ∧ sfrs.find? (fun x => x.record_uid = recUid) = some sfr
      ∧ (some sfr.can_share ≠ fol.can_share ∨ some sfr.can_edit ≠ fol.can_edit)
      ∧ req = Request.sharedFolderUpdate
          { shared_folder_uid := sf_uid,
            update_records := some [{ record_uid := recUid,
                                      shared_folder_uid := sf_uid,
                                      can_edit := fol.can_edit,
                                      can_share := fol.can_share }] }

theorem recPermForFolder_spec (params : Params) (recUid : String)
    (fol : ImportFolder) :
    ∀ req ∈ recPermForFolder params recUid fol,
      c4differs params recUid fol req := by
  intro req hreq
  unfold recPermForFolder at hreq
  split at hreq
  · simp at hreq
  · split at hreq
    · simp at hreq
    · split at hreq
      · simp at hreq
      · split at hreq
        · split at hreq
          · simp at hreq
          next sf_uid hsfu =>
            split at hreq
            · simp at hreq
            next sf hsf =>
              split at hreq
              · simp at hreq
              next sfrs hrecs =>
                split at hreq
                · simp at hreq
                next sfr hfind =>
                  split at hreq
                  next hdiff =>
                    simp only [List.mem_singleton] at hreq
                    exact ⟨sf_uid, sf, sfrs, sfr, hsf, hrecs, hfind, hdiff, hreq⟩
                  next hdiff => simp at hreq
        · simp at hreq

theorem recPermFolders_spec (params : Params) (recUid : String) :
    ∀ (fols : List ImportFolder), ∀ req ∈ recPermFolders params recUid fols,
      ∃ fol ∈ fols, c4differs params recUid fol req := by
  intro fols
  induction fols with
  | nil => intro req hreq; simp [recPermFolders] at hreq
  | cons fol rest ih =>
    intro req hreq
    rcases List.mem_append.mp hreq with h1 | h2
    · exact ⟨fol, List.mem_cons_self _ _,
        recPermForFolder_spec params recUid fol req h1⟩
    · obtain ⟨f, hf, hp⟩ := ih req h2
      exact ⟨f, List.mem_cons_of_mem _ hf, hp⟩

/-- C4 (amended).  In `prepare_record_permission`, an ACL-update operation is
emitted only when the live shared-folder ACL already has an entry for the
record and its live `(can_share, can_edit)` differs from the declared pair:
every emitted request names such a differing live entry (so a declared
permission equal to the live entry emits nothing, as does a record with no
live entry).  The shared-folder import path, by contrast, re-emits grants
unconditionally — see the counterexample. -/
theorem claim_C4 (params : Params) (records : List ImportRecord) :
    ∀ req ∈ prepare_record_permission params records,
      ∃ rec ∈ records, ∃ ruid, rec.uid = some ruid
        ∧ ∃ fol ∈ rec.folders, c4differs params ruid fol req := by
  intro req
  induction records with
  | nil => intro hreq; simp [prepare_record_permission] at hreq
  | cons rec rest ih =>
    intro hreq
    simp only [prepare_record_permission] at hreq
    rcases List.mem_append.mp hreq with h1 | h2
    · split at h1
      · split at h1
        · split at h1
          next ruid hruid h =>
            obtain ⟨fol, hfol, hp⟩ := recPermFolders_spec params ruid _ req h1
            exact ⟨rec, List.mem_cons_self _ _, ruid, hruid, fol, hfol, hp⟩
          next => simp at h1
        · simp at h1
      · simp at h1
    · obtain ⟨r, hr, rest'⟩ := ih h2
      exact ⟨r, List.mem_cons_of_mem _ hr, rest'⟩

/-- Vault for the C4 counterexample: existing shared folder `SF` whose live
ACL already grants team `t1` with `manage_users = manage_records = true`. -/
def c4params : Params :=
  { user := "me@x.com", data_key := 3
    folder_cache :=
      [("sf1", { uid := "sf1", name := some "SF", type := .shared_folder })]
    shared_folder_cache :=
      [("sf1", { shared_folder_key := 9, records := some []
                 teams := some [{ team_uid := "t1", manage_users := true
                                  manage_records := true }] })]
    team_cache := [{ name := "T1", team_uid := "t1", team_key := 5 }] }

/-- Declared shared-folder import: the identical team grant. -/
def c4fol : ImportSharedFolder :=
  { path := "SF", manage_users := true, manage_records := true
    can_edit := true, can_share := true
    permissions := [{ uid := some "t1", name := "T1", manage_users := true
                      manage_records := true }] }

/-- The `shared_folder_update` the code emits nonetheless. -/
def c4update : SfUpdateReq :=
  { shared_folder_uid := "sf1"
    manage_users := some true, manage_records := some true
    can_edit := some true, can_share := some true
    add_teams := some [{ team_uid := "t1", manage_users := true
                         manage_records := true
                         shared_folder_key := Enc.aes 9 5 }] }

/-- C4 (counterexample).  The declared team grant `t1` is identical to the
live ACL entry (same grantee, same manage pair) and there are no record
entries at all, so nothing is new and nothing differs — yet
`prepare_shared_folder_add` emits a `shared_folder_update` re-adding the
grantee: it never consults the live ACL (lines 274-336), refuting
"an ACL-update operation is emitted only when the grantee or record entry is
new or its live pair differs". -/
theorem claim_C4_counterexample :
    (dget c4params.shared_folder_cache "sf1").map (·.teams) =
        some (some [{ team_uid := "t1", manage_users := true
                      manage_records := true }])
      ∧ (dget c4params.shared_folder_cache "sf1").map (·.records) =
          some (some [])
      ∧ prepare_shared_folder_add simpleParseAddr (fun _ => none) none
          c4params [c4fol] 0 = some [Request.sharedFolderUpdate c4update] := by
  refine ⟨by decide, by decide, by decide⟩

/-- Vault for the C4 witness: live ACL entry for `r1` with pair
`(false, false)`, declared pair `(true, true)`. -/
def c4wparams : Params :=
  { user := "u", data_key := 1
    folder_cache :=
      [("f1", { uid := "f1", name := some "S", type := .shared_folder })]
    shared_folder_cache :=
      [("f1", { shared_folder_key := 2
                records := some [{ record_uid := "r1", can_share := false
                                   can_edit := false }] })]
    record_cache := [("r1", { title := some "t" })] }

/-- The records whose folder permission differs from the live entry. -/
def c4wrecords : List ImportRecord :=
  [{ title := some "t"
     folders := [{ can_share := some true, can_edit := some true
                   uid := some "f1" }]
     uid := some "r1" }]

/-- The update request emitted for the differing pair. -/
def c4wreq : Request :=
  Request.sharedFolderUpdate
    { shared_folder_uid := "f1"
      update_records := some [{ record_uid := "r1", shared_folder_uid := "f1"
                                can_edit := some true
                                can_share := some true }] }

theorem claim_C4_witness :
    ∃ rec ∈ c4wrecords, ∃ ruid, rec.uid = some ruid
      ∧ ∃ fol ∈ rec.folders, c4differs c4wparams ruid fol c4wreq :=
  claim_C4 c4wparams c4wrecords c4wreq (by decide)

/-! ## Link Relinker (`prepare_record_link`, lines 498-555) -/

/-- The owning shared-folder uid of a Shared / SharedSub cache folder
(`f.uid if f.type == shared_folder else f.shared_folder_uid`). -/
def sfUidOf (f : CacheFolder) : Option String :=
  if f.type == FolderType.shared_folder then some f.uid else f.shared_folder_uid

/-- The transition-key computation of lines 530-548: outer `none` models the
uncaught `KeyError` of `params.shared_folder_cache[dsf_uid]`; the inner
option is `transition_key` (absent when no re-wrap is emitted). -/
def transitionKeyFor (params : Params) (record_key : Nat)
    (src dst : CacheFolder) : Option (Option (Enc Nat)) :=
  if isSharedType src.type then
    if isSharedType dst.type then
      if sfUidOf src ≠ sfUidOf dst then
        match sfUidOf dst with
        | none => none
        | some dsf =>
          match dget params.shared_folder_cache dsf with
          | none => none
          | some shf => some (some (Enc.aes record_key shf.shared_folder_key))
      else some none
    else some (some (Enc.aes record_key params.data_key))
  else
    if isSharedType dst.type then
      match sfUidOf dst with
      | none => none
      | some dsf =>
        match dget params.shared_folder_cache dsf with
        | none => none
        | some shf => some (some (Enc.aes record_key shf.shared_folder_key))
    else some none

/-- The `move` request built for one `(record, src, dst)` triple (lines
511-554). -/
def buildMoveReq (params : Params) (recUid : String) (record_key : Nat)
    (src dst : CacheFolder) : Option MoveReq :=
  match transitionKeyFor params record_key src dst with
  | none => none
  | some tk =>
    some { to_type := if dst.type == FolderType.root then .user_folder else dst.type
           to_uid := if dst.type ≠ FolderType.root then some dst.uid else none
           link := true
           move := [{ type := "record", uid := recUid
                      from_type :=
                        if src.type == FolderType.root then .user_folder
                        else src.type
                      from_uid :=
                        if src.type ≠ FolderType.root then some src.uid else none
                      cascade := true }]
           transition_keys :=
             match tk with
             | some k => [{ uid := recUid, key := k }]
             | none => [] }

/-- One declared folder of a record (lines 505-554): a move/link is emitted
only for a resolved folder the record is not already in, with the record's
first current folder as the source. -/
def linkOneFolder (params : Params) (record_key : Nat) (recUid : String)
    (folderIds : List String) (fol : ImportFolder) : Option (List Request) :=
  match fol.uid with
  | none => some []
  | some fuid =>
    if fuid = "" then some []
    else
      match dget params.folder_cache fuid with
      | none => some []
      | some dst =>
        if folderIds.length > 0 then
          if fuid ∈ folderIds then some []
          else
            match dget params.folder_cache (folderIds.headD "") with
            | none => none
            | some src =>
              match buildMoveReq params recUid record_key src dst with
              | none => none
              | some m => some [Request.move m]
        else some []

/-- The `for fol in rec.folders` loop. -/
def linkFolders (params : Params) (record_key : Nat) (recUid : String)
    (folderIds : List String) : List ImportFolder → Option (List Request)
  | [] => some []
  | fol :: rest =>
    match linkOneFolder params record_key recUid folderIds fol with
    | none => none
    | some here =>
      match linkFolders params record_key recUid folderIds rest with
      | none => none
      | some more => some (here ++ more)

/-- One record of `prepare_record_link` (lines 500-504): skipped unless the
record has declared folders, a truthy resolved uid present in the record
cache; `find_folders` is the spec-modelled `record_folders` map. -/
def linkOneRecord (params : Params) (rec : ImportRecord) :
    Option (List Request) :=
  if rec.folders ≠ [] then
    match rec.uid with
    | some ruid =>
      if ruid ≠ "" then
        match dget params.record_cache ruid with
        | some record =>
          linkFolders params record.record_key_unencrypted ruid
            ((dget params.record_folders ruid).getD []) rec.folders
        | none => some []
      else some []
    | none => some []
  else some []

/-- `prepare_record_link(params, records)`. -/
def prepare_record_link (params : Params) :
    List ImportRecord → Option (List Request)
  | [] => some []
  | rec :: rest =>
    match linkOneRecord params rec with
    | none => none
    | some here =>
      match prepare_record_link params rest with
      | none => none
      | some more => some (here ++ more)

/-- The C9 transition-key contract for one emitted move request. -/
def claimC9Prop (params : Params) (recUid : String) (record_key : Nat)
    (src dst : CacheFolder) (m : MoveReq) : Prop :=
  (isSharedType src.type = true ∧ isSharedType dst.type = true
      ∧ sfUidOf src ≠ sfUidOf dst →
    ∃ dsf shf, sfUidOf dst = some dsf
      ∧ dget params.shared_folder_cache dsf = some shf
      ∧ m.transition_keys =
          [{ uid := recUid, key := Enc.aes record_key shf.shared_folder_key }])
  ∧ (isSharedType src.type = true ∧ isSharedType dst.type = false →
      m.transition_keys =
        [{ uid := recUid, key := Enc.aes record_key params.data_key }])
  ∧ (isSharedType src.type = false ∧ isSharedType dst.type = true →
      ∃ dsf shf, sfUidOf dst = some dsf
        ∧ dget params.shared_folder_cache dsf = some shf
        ∧ m.transition_keys =
            [{ uid := recUid, key := Enc.aes record_key shf.shared_folder_key }])
  ∧ ((isSharedType src.type = true ∧ isSharedType dst.type = true
        ∧ sfUidOf src = sfUidOf dst)
      ∨ (isSharedType src.type = false ∧ isSharedType dst.type = false) →
      m.transition_keys = [])

theorem transitionKeyFor_spec (params : Params) (rk : Nat)
    (src dst : CacheFolder) (tk : Option (Enc Nat))
    (h : transitionKeyFor params rk src dst = some tk) :
    (isSharedType src.type = true ∧ isSharedType dst.type = true
        ∧ sfUidOf src ≠ sfUidOf dst →
      ∃ dsf shf, sfUidOf dst = some dsf
        ∧ dget params.shared_folder_cache dsf = some shf
        ∧ tk = some (Enc.aes rk shf.shared_folder_key))
    ∧ (isSharedType src.type = true ∧ isSharedType dst.type = false →
        tk = some (Enc.aes rk params.data_key))
    ∧ (isSharedType src.type = false ∧ isSharedType dst.type = true →
        ∃ dsf shf, sfUidOf dst = some dsf
          ∧ dget params.shared_folder_cache dsf = some shf
          ∧ tk = some (Enc.aes rk shf.shared_folder_key))
    ∧ ((isSharedType src.type = true ∧ isSharedType dst.type = true
          ∧ sfUidOf src = sfUidOf dst)
        ∨ (isSharedType src.type = false ∧ isSharedType dst.type = false) →
        tk = none) := by
  unfold transitionKeyFor at h
  by_cases hs : isSharedType src.type = true
  · rw [if_pos hs] at h
    by_cases hd : isSharedType dst.type = true
    · rw [if_pos hd] at h
      by_cases hu : sfUidOf src ≠ sfUidOf dst
      · rw [if_pos hu] at h
        cases hdsf : sfUidOf dst with
        | none => rw [hdsf] at h; exact absurd h (by simp)
        | some dsf =>
          rw [hdsf] at h
          dsimp only at h
          cases hshf : dget params.shared_folder_cache dsf with
          | none => rw [hshf] at h; exact absurd h (by simp)
          | some shf =>
            rw [hshf] at h
            dsimp only at h
            injection h with h
            refine ⟨fun _ => ⟨dsf, shf, rfl, hshf, h.symm⟩,
              fun hc => absurd hd (by simp [hc.2]),
              fun hc => absurd hs (by simp [hc.1]),
              fun hc => ?_⟩
            rcases hc with ⟨_, _, he⟩ | ⟨h1, _⟩
            · exact absurd (he.trans hdsf.symm) hu
            · exact absurd hs (by simp [h1])
      · rw [if_neg hu] at h
        injection h with h
        push_neg at hu
        refine ⟨fun hc => absurd hc.2.2 (by simp [hu]),
          fun hc => absurd hd (by simp [hc.2]),
          fun hc => absurd hs (by simp [hc.1]),
          fun _ => h.symm⟩
    · rw [if_neg hd] at h
      injection h with h
      refine ⟨fun hc => absurd hc.2.1 hd,
        fun _ => h.symm,
        fun hc => absurd hs (by simp [hc.1]),
        fun hc => ?_⟩
      rcases hc with ⟨_, h2, _⟩ | ⟨h1, _⟩
      · exact absurd h2 hd
      · exact absurd hs (by simp [h1])
  · rw [if_neg hs] at h
    by_cases hd : isSharedType dst.type = true
    · rw [if_pos hd] at h
      cases hdsf : sfUidOf dst with
      | none => rw [hdsf] at h; exact absurd h (by simp)
      | some dsf =>
        rw [hdsf] at h
        dsimp only at h
        cases hshf : dget params.shared_folder_cache dsf with
        | none => rw [hshf] at h; exact absurd h (by simp)
        | some shf =>
          rw [hshf] at h
          dsimp only at h
          injection h with h
          refine ⟨fun hc => absurd hc.1 hs,
            fun hc => absurd hc.1 hs,
            fun _ => ⟨dsf, shf, rfl, hshf, h.symm⟩,
            fun hc => ?_⟩
          rcases hc with ⟨h1, _⟩ | ⟨_, h2⟩
          · exact absurd h1 hs
          · exact absurd hd (by simp [h2])
    · rw [if_neg hd] at h
      injection h with h
      refine ⟨fun hc => absurd hc.1 hs,
        fun hc => absurd hc.1 hs,
        fun hc => absurd hc.2 hd,
        fun _ => h.symm⟩

theorem buildMoveReq_spec (params : Params) (recUid : String) (rk : Nat)
    (src dst : CacheFolder) (m : MoveReq)
    (h : buildMoveReq params recUid rk src dst = some m) :
    claimC9Prop params recUid rk src dst m := by
  unfold buildMoveReq at h
  cases htk : transitionKeyFor params rk src dst with
  | none => rw [htk] at h; exact absurd h (by simp)
  | some tk =>
    rw [htk] at h
    dsimp only at h
    injection h with h
    subst h
    obtain ⟨s1, s2, s3, s4⟩ := transitionKeyFor_spec params rk src dst tk htk
    refine ⟨fun hc => ?_, fun hc => ?_, fun hc => ?_, fun hc => ?_⟩
    · obtain ⟨dsf, shf, h1, h2, h3⟩ := s1 hc
      refine ⟨dsf, shf, h1, h2, ?_⟩
      show (match tk with
        | some k => [({ uid := recUid, key := k } : TransitionKey)]
        | none => []) = _
      rw [h3]
    · show (match tk with
        | some k => [({ uid := recUid, key := k } : TransitionKey)]
        | none => []) = _
      rw [s2 hc]
    · obtain ⟨dsf, shf, h1, h2, h3⟩ := s3 hc
      refine ⟨dsf, shf, h1, h2, ?_⟩
      show (match tk with
        | some k => [({ uid := recUid, key := k } : TransitionKey)]
        | none => []) = _
      rw [h3]
    · show (match tk with
        | some k => [({ uid := recUid, key := k } : TransitionKey)]
        | none => []) = _
      rw [s4 hc]

theorem linkOneFolder_spec (params : Params) (rk : Nat) (ruid : String)
    (fids : List String) (fol : ImportFolder) (out : List Request)
    (h : linkOneFolder params rk ruid fids fol = some out) :
    ∀ req ∈ out, ∃ (src dst : CacheFolder) (m : MoveReq),
      req = Request.move m ∧ buildMoveReq params ruid rk src dst = some m := by
  intro req hreq
  unfold linkOneFolder at h
  split at h
  · injection h with h; subst h; simp at hreq
  · split at h
    · injection h with h; subst h; simp at hreq
    · split at h
      · injection h with h; subst h; simp at hreq
      next dst hdst =>
        split at h
        · split at h
          · injection h with h; subst h; simp at hreq
          · split at h
            · exact absurd h (by simp)
            next src hsrc =>
              split at h
              · exact absurd h (by simp)
              next m hbm =>
                injection h with h; subst h
                simp only [List.mem_singleton] at hreq
                exact ⟨src, dst, m, hreq, hbm⟩
        · injection h with h; subst h; simp at hreq

theorem linkFolders_spec (params : Params) (rk : Nat) (ruid : String)
    (fids : List String) :
    ∀ (fols : List ImportFolder) (out : List Request),
      linkFolders params rk ruid fids fols = some out →
      ∀ req ∈ out, ∃ (src dst : CacheFolder) (m : MoveReq),
        req = Request.move m ∧ buildMoveReq params ruid rk src dst = some m := by
  intro fols
  induction fols with
  | nil =>
    intro out h req hreq
    injection h with h; subst h; simp at hreq
  | cons fol rest ih =>
    intro out h req hreq
    simp only [linkFolders] at h
    cases h1 : linkOneFolder params rk ruid fids fol with
    | none => rw [h1] at h; exact absurd h (by simp)
    | some here =>
      rw [h1] at h
      dsimp only at h
      cases h2 : linkFolders params rk ruid fids rest with
      | none => rw [h2] at h; exact absurd h (by simp)
      | some more =>
        rw [h2] at h
        injection h with h; subst h
        rcases List.mem_append.mp hreq with hh | hh
        · exact linkOneFolder_spec params rk ruid fids fol here h1 req hh
        · exact ih more h2 req hh

theorem linkOneRecord_spec (params : Params) (rec : ImportRecord)
    (out : List Request) (h : linkOneRecord params rec = some out) :
    ∀ req ∈ out, ∃ (ruid : String) (rk : Nat) (src dst : CacheFolder)
      (m : MoveReq),
      req = Request.move m ∧ buildMoveReq params ruid rk src dst = some m := by
  intro req hreq
  unfold linkOneRecord at h
  split at h
  · split at h
    next ruid hruid =>
      split at h
      · split at h
        next record hrec =>
          obtain ⟨src, dst, m, hm, hbm⟩ :=
            linkFolders_spec params record.record_key_unencrypted ruid
              ((dget params.record_folders ruid).getD []) rec.folders out h
              req hreq
          exact ⟨ruid, record.record_key_unencrypted, src, dst, m, hm, hbm⟩
        next => injection h with h; subst h; simp at hreq
      · injection h with h; subst h; simp at hreq
    next => injection h with h; subst h; simp at hreq
  · injection h with h; subst h; simp at hreq

/-- C9.  Every move/link operation `prepare_record_link` emits carries
exactly the transition key the claim describes: between two different owning
shared folders, the record key wrapped under the destination's shared-folder
key; from shared into plain, wrapped under the vault master key; from plain
into shared, wrapped under the destination's shared-folder key; and when
both endpoints resolve to the same owning key (same owning shared folder, or
both plain/master), no transition key is emitted. -/
theorem claim_C9 (params : Params) (records : List ImportRecord) :
    ∀ (out : List Request), prepare_record_link params records = some out →
      ∀ req ∈ out, ∃ (ruid : String) (rk : Nat) (src dst : CacheFolder)
        (m : MoveReq),
        req = Request.move m
          ∧ buildMoveReq params ruid rk src dst = some m
          ∧ claimC9Prop params ruid rk src dst m := by
  induction records with
  | nil =>
    intro out h req hreq
    injection h with h; subst h; simp at hreq
  | cons rec rest ih =>
    intro out h req hreq
    simp only [prepare_record_link] at h
    cases h1 : linkOneRecord params rec with
    | none => rw [h1] at h; exact absurd h (by simp)
    | some here =>
      rw [h1] at h
      dsimp only at h
      cases h2 : prepare_record_link params rest with
      | none => rw [h2] at h; exact absurd h (by simp)
      | some more =>
        rw [h2] at h
        injection h with h; subst h
        rcases List.mem_append.mp hreq with hh | hh
        · obtain ⟨ruid, rk, src, dst, m, hm, hbm⟩ :=
            linkOneRecord_spec params rec here h1 req hh
          exact ⟨ruid, rk, src, dst, m, hm, hbm,
            buildMoveReq_spec params ruid rk src dst m hbm⟩
        · exact ih more h2 req hh

/-- Vault for the C9 witness: record `r1` currently lives in plain folder
`f1`; its import declares shared folder `f2`. -/
def c9params : Params :=
  { user := "u", data_key := 1
    folder_cache :=
      [("f1", { uid := "f1", name := some "P", type := .user_folder }),
       ("f2", { uid := "f2", name := some "S", type := .shared_folder })]
    shared_folder_cache := [("f2", { shared_folder_key := 8 })]
    record_cache := [("r1", { title := some "t", record_key_unencrypted := 4 })]
    record_folders := [("r1", ["f1"])] }

/-- The records for the C9 witness. -/
def c9records : List ImportRecord :=
  [{ title := some "t", folders := [{ uid := some "f2" }], uid := some "r1" }]

/-- The emitted move/link: into shared, so the record key is wrapped under
the destination's shared-folder key. -/
def c9m : MoveReq :=
  { to_type := .shared_folder, to_uid := some "f2", link := true
    move := [{ type := "record", uid := "r1", from_type := .user_folder
               from_uid := some "f1", cascade := true }]
    transition_keys := [{ uid := "r1", key := Enc.aes 4 8 }] }

theorem claim_C9_witness :
    ∃ (ruid : String) (rk : Nat) (src dst : CacheFolder) (m : MoveReq),
      Request.move c9m = Request.move m
        ∧ buildMoveReq c9params ruid rk src dst = some m
        ∧ claimC9Prop c9params ruid rk src dst m :=
  claim_C9 c9params c9records [Request.move c9m] (by decide)
    (Request.move c9m) (by decide)

theorem recordAddLoop_reqSpec (params : Params)
    (rhash : List (String × String)) :
    ∀ (records : List ImportRecord) (g g' : Nat) (reqs : List Request)
      (recs : List ImportRecord),
      recordAddLoop params rhash g records = some (reqs, recs, g') →
      ∀ q : RecordAddReq, Request.recordAdd q ∈ reqs →
        ∃ k, q.record_key = Enc.aes k params.data_key
          ∧ ((q.folder_type = .shared_folder
                ∨ q.folder_type = .shared_folder_folder) →
              ∃ sk, q.folder_key = some (Enc.aes k sk))
          ∧ (q.folder_type = .user_folder → q.folder_key = none) := by
  intro records
  induction records with
  | nil =>
    intro g g' reqs recs h q hq
    simp only [recordAddLoop, Option.some.injEq, Prod.mk.injEq] at h
    obtain ⟨h1, _, _⟩ := h
    subst h1
    simp at hq
  | cons rec0 rest ih =>
    intro g g' reqs recs h q hq
    simp only [recordAddLoop] at h
    cases hstep : addRecordStep params rhash g rec0 with
    | none => rw [hstep] at h; exact absurd h (by simp)
    | some t =>
      obtain ⟨oreq, rec0', g1⟩ := t
      rw [hstep] at h
      dsimp only at h
      cases hloop : recordAddLoop params rhash g1 rest with
      | none => rw [hloop] at h; exact absurd h (by simp)
      | some t2 =>
        obtain ⟨reqs1, recs1, g2⟩ := t2
        rw [hloop] at h
        simp only [Option.some.injEq, Prod.mk.injEq] at h
        obtain ⟨hreqs, _, _⟩ := h
        subst hreqs
        rcases List.mem_append.mp hq with h1 | h2
        · cases hd : dget rhash (recFingerprint rec0) with
          | some u =>
            rw [addRecordStep_found params rhash g rec0 u hd] at hstep
            injection hstep with hstep
            have horeq : oreq = none := by
              have := congrArg Prod.fst hstep
              simpa using this.symm
            rw [horeq] at h1
            simp at h1
          | none =>
            simp only [addRecordStep, hd, Option.map_eq_some'] at hstep
            obtain ⟨q0, hq0, hF⟩ := hstep
            have horeq : oreq = some (Request.recordAdd q0) := by
              have := congrArg Prod.fst hF
              simpa using this.symm
            rw [horeq] at h1
            simp only [Option.toList_some, List.mem_singleton] at h1
            injection h1 with h1
            subst h1
            obtain ⟨hrk, _, huser, hshared⟩ :=
              recordAddReqFor_spec params g rec0 q hq0
            exact ⟨keyOf g, hrk, hshared, huser⟩
        · exact ih g1 g2 reqs1 recs1 hloop q h2

/-- C10.  Every `record_add` assembled by `prepare_record_add` carries a
`record_key` that is the fresh record key wrapped under the vault master
key — even when the record's primary folder is Shared / SharedSub, in which
case a `folder_key` (the same record key wrapped under the shared-folder
key) is present in addition to — not instead of — the master-wrapped
`record_key`; a plain user-folder placement carries no `folder_key`. -/
theorem claim_C10 (params : Params) (records : List ImportRecord)
    (g g' : Nat) (reqs : List Request) (recs : List ImportRecord)
    (h : prepare_record_add params records g = some (reqs, recs, g'))
    (q : RecordAddReq) (hq : Request.recordAdd q ∈ reqs) :
    ∃ k, q.record_key = Enc.aes k params.data_key
      ∧ ((q.folder_type = .shared_folder
            ∨ q.folder_type = .shared_folder_folder) →
          ∃ sk, q.folder_key = some (Enc.aes k sk))
      ∧ (q.folder_type = .user_folder → q.folder_key = none) :=
  recordAddLoop_reqSpec params (buildRecordHash params.record_cache) records
    g g' reqs recs h q hq

/-- Vault for the C10 witness: the record's primary folder is the shared
folder `f1` (key 2). -/
def c10params : Params :=
  { user := "u", data_key := 1
    folder_cache :=
      [("f1", { uid := "f1", name := some "S", type := .shared_folder })]
    shared_folder_cache := [("f1", { shared_folder_key := 2 })] }

/-- The records for the C10 witness. -/
def c10records : List ImportRecord :=
  [{ title := some "t", login := some "l", password := some "p"
     folders := [{ uid := some "f1" }] }]

/-- The emitted `record_add`: master-wrapped record key AND a shared-wrapped
folder key. -/
def c10req : RecordAddReq :=
  { record_uid := "uid0"
    record_key := Enc.aes 0 1
    folder_type := .shared_folder
    folder_uid := some "f1"
    folder_key := some (Enc.aes 0 2)
    data := Enc.aes
      { title := "t", secret1 := "l", secret2 := "p", link := "", notes := ""
        custom := [] } 0 }

theorem claim_C10_witness :
    ∃ k, c10req.record_key = Enc.aes k c10params.data_key
      ∧ ((c10req.folder_type = .shared_folder
            ∨ c10req.folder_type = .shared_folder_folder) →
          ∃ sk, c10req.folder_key = some (Enc.aes k sk))
      ∧ (c10req.folder_type = .user_folder → c10req.folder_key = none) :=
  claim_C10 c10params c10records 0 1 [Request.recordAdd c10req]
    [{ title := some "t", login := some "l", password := some "p"
       folders := [{ uid := some "f1" }], uid := some "uid0" }]
    (by decide) c10req (by decide)
